import Mathlib

/-
Verification development for the ZemDomu semantic-HTML linter core.

This file gives a shallow embedding of the linter's core algorithms:
  * the single-file HTML rule engine (`lintHtmlString` and its traversal,
    from src/linter.ts),
  * the lightweight HTML tokenizer / tree builder (`tokenize` / `parse`,
    from src/simpleHtmlParser.ts),
  * the JSX/TSX rule engine (`lintJsx` from src/linter.ts), driven over a
    model of the Babel JSX AST fragment the linter consumes,
  * the cross-component analyzer (`ComponentAnalyzer` from
    src/component-analyzer.ts) over an explicit component registry.

JavaScript-specific semantics (string truthiness, `Array`/`Set`/`Map`
behaviour, `||` fallbacks on falsy values such as `0` and `""`) are modelled
explicitly where the source relies on them.  Machine integers do not occur:
all counters are unbounded in the source (JS numbers used as small counts).
Loops that are not structurally bounded in the source (the tokenizer's scan
loop, the analyzer's recursive reference search) are modelled with an
explicit fuel argument, `none` meaning the computation did not finish within
the given fuel; divergence of the source is then expressed as `∀ fuel, _ = none`.
-/

namespace ZemDomu

/-- ASCII lower-casing, modelling JS `String.prototype.toLowerCase` on the
ASCII tag/attribute names the linter manipulates. -/
def lowerStr (s : String) : String := ⟨s.data.map Char.toLower⟩

/-- Whitespace class used by JS `String.prototype.trim` (ASCII part). -/
def isJsWS (c : Char) : Bool :=
  c = ' ' || c = '\t' || c = '\n' || c = '\r' || c = '\x0b' || c = '\x0c'

/-- Model of JS `String.prototype.trim`. -/
def trimStr (s : String) : String :=
  ⟨((s.data.dropWhile isJsWS).reverse.dropWhile isJsWS).reverse⟩

/-- Model of JS `String.prototype.startsWith`. -/
def startsWithStr (s p : String) : Bool :=
  s.data.take p.data.length = p.data

/-- One diagnostic (interface `LintResult` in src/linter.ts).  The TypeScript
interface declares `rule` as a required `string`, but TypeScript types are
erased at runtime and some producers (the cross-component analyzer) push
object literals without a `rule` property; we therefore model the field as
`Option String`, `none` meaning the property is absent at runtime. -/
structure LintResult where
  line : Nat
  column : Nat
  message : String
  rule : Option String
  filePath : Option String
deriving Repr, DecidableEq

/-- A 0-based source position as used by the rule engine. -/
structure Pos where
  line : Nat
  column : Nat
deriving Repr, DecidableEq

/-- The per-rule switches of `LinterOptions.rules` (src/linter.ts). -/
structure Rules where
  requireSectionHeading : Bool
  enforceHeadingOrder : Bool
  singleH1 : Bool
  requireAltText : Bool
  requireLabelForFormControls : Bool
  enforceListNesting : Bool
  requireLinkText : Bool
  requireTableCaption : Bool
  preventEmptyInlineTags : Bool
  requireHrefOnAnchors : Bool
  requireButtonText : Bool
  requireIframeTitle : Bool
  requireHtmlLang : Bool
  requireImageInputAlt : Bool
  requireNavLinks : Bool
  uniqueIds : Bool
deriving Repr, DecidableEq

/-- `LinterOptions` (src/linter.ts). -/
structure LinterOptions where
  crossComponentAnalysis : Bool
  rules : Rules
deriving Repr, DecidableEq

/-- The `defaultOptions` constant of src/linter.ts: everything enabled. -/
def defaultOptions : LinterOptions :=
  { crossComponentAnalysis := true
    rules :=
      { requireSectionHeading := true
        enforceHeadingOrder := true
        singleH1 := true
        requireAltText := true
        requireLabelForFormControls := true
        enforceListNesting := true
        requireLinkText := true
        requireTableCaption := true
        preventEmptyInlineTags := true
        requireHrefOnAnchors := true
        requireButtonText := true
        requireIframeTitle := true
        requireHtmlLang := true
        requireImageInputAlt := true
        requireNavLinks := true
        uniqueIds := true } }

/-- Number of results in `l` carrying rule id `r`. -/
def countRule (r : String) (l : List LintResult) : Nat :=
  (l.filter (fun x => x.rule = some r)).length

/-- Node of the lightweight HTML DOM (src/simpleHtmlParser.ts). -/
inductive Node where
  | element (tagName : String) (attrs : List (String × String))
      (children : List Node) (startIndex : Nat) (selfClosing : Bool)
  | text (txt : String) (startIndex : Nat)
  | comment (txt : String) (startIndex : Nat)
deriving Repr

/-- Lookup in an attribute record.  `parseAttributes` builds a JS object by
repeated assignment, so a later binding of the same name overwrites an
earlier one: the effective value is the last binding. -/
def attrGet (attrs : List (String × String)) (name : String) : Option String :=
  (attrs.reverse.find? (fun p => p.1 = name)).map (fun p => p.2)

/-- Entry of the open-tag stack (`tagStack` in `lintHtmlString`). -/
structure TagEntry where
  tag : String
  line : Nat
  column : Nat
deriving Repr, DecidableEq

/-- Entry of `sectionStack`. -/
structure SecEntry where
  foundHeading : Bool
  line : Nat
  column : Nat
deriving Repr, DecidableEq

/-- Entry of `anchorStack`. -/
structure TxtEntry where
  foundText : Bool
  line : Nat
  column : Nat
deriving Repr, DecidableEq

/-- Entry of `buttonStack`. -/
structure BtnEntry where
  foundText : Bool
  line : Nat
  column : Nat
  hadEmptyAria : Bool
deriving Repr, DecidableEq

/-- Entry of `tableStack`. -/
structure TblEntry where
  foundCaption : Bool
  line : Nat
  column : Nat
deriving Repr, DecidableEq

/-- Entry of `emptyStack` (empty-inline-tag tracking). -/
structure EmpEntry where
  tag : String
  foundText : Bool
  line : Nat
  column : Nat
deriving Repr, DecidableEq

/-- Entry of `navStack`. -/
structure NavEntry where
  line : Nat
  column : Nat
  hasLink : Bool
deriving Repr, DecidableEq

/-- The mutable state of the `lintHtmlString` traversal (src/linter.ts,
the local variables of the function). -/
structure HState where
  results : List LintResult
  tagStack : List TagEntry
  lastHeadingLevel : Nat
  h1Count : Nat
  sectionStack : List SecEntry
  anchorStack : List TxtEntry
  buttonStack : List BtnEntry
  tableStack : List TblEntry
  emptyStack : List EmpEntry
  labels : List String
  ignoreNext : Bool
  ignoreBlock : Bool
  htmlSeen : Bool
  navStack : List NavEntry
  ids : List (String × Pos)
deriving Repr, DecidableEq

/-- Initial state of a `lintHtmlString` run. -/
def initHState : HState :=
  { results := [], tagStack := [], lastHeadingLevel := 0, h1Count := 0
    sectionStack := [], anchorStack := [], buttonStack := [], tableStack := []
    emptyStack := [], labels := [], ignoreNext := false, ignoreBlock := false
    htmlSeen := false, navStack := [], ids := [] }

/-- Build a single-file result (no `filePath`, the given rule id). -/
def mkRes (pos : Pos) (msg : String) (r : String) : LintResult :=
  { line := pos.line, column := pos.column, message := msg, rule := some r, filePath := none }

/-- Mark the top entry of a text-accumulating stack (`stack[stack.length-1].foundText = true`,
guarded by `stack.length`). -/
def markTxtTop : List TxtEntry → List TxtEntry
  | [] => []
  | e :: es => { e with foundText := true } :: es

/-- Mark the top entry of `emptyStack`. -/
def markEmpTop : List EmpEntry → List EmpEntry
  | [] => []
  | e :: es => { e with foundText := true } :: es

/-- Mark the top entry of `buttonStack`. -/
def markBtnTop : List BtnEntry → List BtnEntry
  | [] => []
  | e :: es => { e with foundText := true } :: es

/-- Mark the top entry of `navStack` (`hasLink = true`). -/
def markNavTop : List NavEntry → List NavEntry
  | [] => []
  | e :: es => { e with hasLink := true } :: es

/-- Mark the top entry of `sectionStack` (`foundHeading = true`). -/
def markSecTop : List SecEntry → List SecEntry
  | [] => []
  | e :: es => { e with foundHeading := true } :: es

/-- Mark the top entry of `tableStack` (`foundCaption = true`). -/
def markTblTop : List TblEntry → List TblEntry
  | [] => []
  | e :: es => { e with foundCaption := true } :: es

/-- Step for the label-registration block (`if (tag === 'label' && node.attrs['for'])
labels.add(...)`, JS truthiness: the attribute must be present and non-empty). -/
def stLabel (tag : String) (attrs : List (String × String)) (s : HState) : HState :=
  if tag = "label" then
    match attrGet attrs "for" with
    | some v => if v ≠ "" then { s with labels := s.labels ++ [v] } else s
    | none => s
  else s

/-- Step for `if (tag === 'nav') navStack.push(...)`. -/
def stNav (tag : String) (pos : Pos) (s : HState) : HState :=
  if tag = "nav" then
    { s with navStack := { line := pos.line, column := pos.column, hasLink := false } :: s.navStack }
  else s

/-- Step for `if (tag === 'a' && navStack.length) navStack[top].hasLink = true`. -/
def stNavLink (tag : String) (s : HState) : HState :=
  if tag = "a" then { s with navStack := markNavTop s.navStack } else s

/-- Step for the `uniqueIds` rule block. -/
def stUniqueIds (o : Rules) (attrs : List (String × String)) (pos : Pos) (s : HState) : HState :=
  if o.uniqueIds then
    match attrGet attrs "id" with
    | some idVal =>
      if idVal ≠ "" then
        if s.ids.any (fun p => p.1 = idVal) then
          { s with results := s.results ++
              [mkRes pos ("Duplicate id \"" ++ idVal ++ "\"") "uniqueIds"] }
        else { s with ids := s.ids ++ [(idVal, pos)] }
      else s
    | none => s
  else s

/-- Step for the `requireHtmlLang` rule block (only the first `<html>`). -/
def stHtmlLang (o : Rules) (tag : String) (attrs : List (String × String)) (pos : Pos)
    (s : HState) : HState :=
  if o.requireHtmlLang ∧ tag = "html" ∧ s.htmlSeen = false then
    let s1 := { s with htmlSeen := true }
    match attrGet attrs "lang" with
    | none => { s1 with results := s1.results ++
        [mkRes pos "<html> element missing lang attribute" "requireHtmlLang"] }
    | some lang =>
      if trimStr lang = "" then
        { s1 with results := s1.results ++
            [mkRes pos "<html> lang attribute is empty" "requireHtmlLang"] }
      else s1
  else s

/-- Step for the `requireIframeTitle` rule block. -/
def stIframe (o : Rules) (tag : String) (attrs : List (String × String)) (pos : Pos)
    (s : HState) : HState :=
  if o.requireIframeTitle ∧ tag = "iframe" then
    match attrGet attrs "title" with
    | none => { s with results := s.results ++
        [mkRes pos "<iframe> missing title attribute" "requireIframeTitle"] }
    | some t =>
      if trimStr t = "" then
        { s with results := s.results ++
            [mkRes pos "<iframe> title attribute is empty" "requireIframeTitle"] }
      else s
  else s

/-- Step for the `requireImageInputAlt` rule block
(`tag === 'input' && node.attrs.type && node.attrs.type.toLowerCase() === 'image'`). -/
def stImageInput (o : Rules) (tag : String) (attrs : List (String × String)) (pos : Pos)
    (s : HState) : HState :=
  if o.requireImageInputAlt ∧ tag = "input" then
    match attrGet attrs "type" with
    | some ty =>
      if ty ≠ "" ∧ lowerStr ty = "image" then
        match attrGet attrs "alt" with
        | none => { s with results := s.results ++
            [mkRes pos "<input type=\"image\"> missing alt attribute" "requireImageInputAlt"] }
        | some a =>
          if trimStr a = "" then
            { s with results := s.results ++
                [mkRes pos "<input type=\"image\"> alt attribute is empty" "requireImageInputAlt"] }
          else s
      else s
    | none => s
  else s

/-- JS test `!aria || !aria.trim()` on the `aria-label` attribute value. -/
def ariaMissingB (attrs : List (String × String)) : Bool :=
  match attrGet attrs "aria-label" with
  | none => true
  | some a => trimStr a = ""

/-- JS test for the labelling violation given the set `L` of `<label for=...>`
targets seen so far: no `id` (`!id`, missing or empty) or an `id` without a
registered label. -/
def labelViolB (attrs : List (String × String)) (L : List String) : Bool :=
  match attrGet attrs "id" with
  | none => true
  | some id => id = "" || !(L.contains id)

/-- Message pushed by the `requireLabelForFormControls` block. -/
def labelForMsg (attrs : List (String × String)) : String :=
  match attrGet attrs "id" with
  | none => "Form control missing id or aria-label"
  | some id =>
    if id = "" then "Form control missing id or aria-label"
    else "Form control with id=\"" ++ id ++ "\" missing <label for=\"" ++ id ++ "\">"

/-- Step for the `requireLabelForFormControls` rule block. -/
def stLabelFor (o : Rules) (tag : String) (attrs : List (String × String)) (pos : Pos)
    (s : HState) : HState :=
  if o.requireLabelForFormControls ∧ tag ∈ ["input", "select", "textarea"] then
    if ariaMissingB attrs ∧ labelViolB attrs s.labels then
      { s with results := s.results ++
          [mkRes pos (labelForMsg attrs) "requireLabelForFormControls"] }
    else s
  else s

/-- Step for the `singleH1` rule block. -/
def stSingleH1 (o : Rules) (tag : String) (pos : Pos) (s : HState) : HState :=
  if o.singleH1 ∧ tag = "h1" then
    let s1 := { s with h1Count := s.h1Count + 1 }
    if s1.h1Count > 1 then
      { s1 with results := s1.results ++
          [mkRes pos "Only one <h1> allowed per document" "singleH1"] }
    else s1
  else s

/-- Numeric level of a heading tag, `none` if the tag does not match
`/^h[1-6]$/`. -/
def headingLevel (tag : String) : Option Nat :=
  if tag = "h1" then some 1
  else if tag = "h2" then some 2
  else if tag = "h3" then some 3
  else if tag = "h4" then some 4
  else if tag = "h5" then some 5
  else if tag = "h6" then some 6
  else none

/-- Step for the `enforceHeadingOrder` rule block (also records the heading
on the enclosing section, and updates `lastHeadingLevel`). -/
def stHeadingOrder (o : Rules) (tag : String) (pos : Pos) (s : HState) : HState :=
  if o.enforceHeadingOrder then
    match headingLevel tag with
    | some lvl =>
      let s1 :=
        if s.lastHeadingLevel ≠ 0 ∧ lvl > s.lastHeadingLevel + 1 then
          { s with results := s.results ++
              [mkRes pos ("Heading level skipped: <" ++ tag ++ "> after <h" ++
                toString s.lastHeadingLevel ++ ">") "enforceHeadingOrder"] }
        else s
      { s1 with lastHeadingLevel := lvl, sectionStack := markSecTop s1.sectionStack }
    | none => s
  else s

/-- Step for the `requireAltText` rule block. -/
def stAltText (o : Rules) (tag : String) (attrs : List (String × String)) (pos : Pos)
    (s : HState) : HState :=
  if o.requireAltText ∧ tag = "img" then
    match attrGet attrs "alt" with
    | none => { s with results := s.results ++
        [mkRes pos "<img> tag missing alt attribute" "requireAltText"] }
    | some a =>
      if trimStr a = "" then
        { s with results := s.results ++
            [mkRes pos "<img> alt attribute is empty" "requireAltText"] }
      else s
  else s

/-- Does the (optional) parent tag satisfy `['ul','ol'].includes(parent.tag)`? -/
def parentOkB (p : Option TagEntry) : Bool :=
  match p with
  | some e => e.tag = "ul" || e.tag = "ol"
  | none => false

/-- Step for the `enforceListNesting` rule block: the current element has
already been pushed on `tagStack`, so its parent is `tagStack[length-2]`,
i.e. the second entry of our head-is-top list. -/
def stListNesting (o : Rules) (tag : String) (pos : Pos) (s : HState) : HState :=
  if o.enforceListNesting ∧ tag = "li" then
    if parentOkB s.tagStack.tail.head? then s
    else { s with results := s.results ++
        [mkRes pos "<li> must be inside a <ul> or <ol>" "enforceListNesting"] }
  else s

/-- Step for the anchor block: always push on `anchorStack`; with
`requireHrefOnAnchors` enabled also check `!href || !href.trim()`. -/
def stAnchor (o : Rules) (tag : String) (attrs : List (String × String)) (pos : Pos)
    (s : HState) : HState :=
  if tag = "a" then
    let s1 := { s with anchorStack :=
      { foundText := false, line := pos.line, column := pos.column } :: s.anchorStack }
    if o.requireHrefOnAnchors then
      match attrGet attrs "href" with
      | none => { s1 with results := s1.results ++
          [mkRes pos "<a> tag missing non-empty href attribute" "requireHrefOnAnchors"] }
      | some h =>
        if trimStr h = "" then
          { s1 with results := s1.results ++
              [mkRes pos "<a> tag missing non-empty href attribute" "requireHrefOnAnchors"] }
        else s1
    else s1
  else s

/-- Step for the button-open block (guarded by `requireButtonText`). -/
def stButton (o : Rules) (tag : String) (attrs : List (String × String)) (pos : Pos)
    (s : HState) : HState :=
  if o.requireButtonText ∧ tag = "button" then
    let aria := attrGet attrs "aria-label"
    let ft := match aria with
      | some a => trimStr a ≠ ""
      | none => false
    let hea := match aria with
      | some a => trimStr a = ""
      | none => false
    { s with buttonStack :=
      { foundText := ft, line := pos.line, column := pos.column, hadEmptyAria := hea } :: s.buttonStack }
  else s

/-- Step for `if (tag === 'table') tableStack.push(...)` (unconditional). -/
def stTable (tag : String) (pos : Pos) (s : HState) : HState :=
  if tag = "table" then
    { s with tableStack :=
      { foundCaption := false, line := pos.line, column := pos.column } :: s.tableStack }
  else s

/-- Step for `if (tag === 'caption' && tableStack.length) ...foundCaption = true`. -/
def stCaption (tag : String) (s : HState) : HState :=
  if tag = "caption" then { s with tableStack := markTblTop s.tableStack } else s

/-- The inline-tag set of `lintHtmlString`. -/
def inlineTagsList : List String :=
  ["strong", "em", "b", "i", "u", "small", "mark", "del", "ins"]

/-- Step for the empty-inline-tag push (guarded by `preventEmptyInlineTags`). -/
def stEmptyInline (o : Rules) (tag : String) (pos : Pos) (s : HState) : HState :=
  if o.preventEmptyInlineTags ∧ tag ∈ inlineTagsList then
    { s with emptyStack :=
      { tag := tag, foundText := false, line := pos.line, column := pos.column } :: s.emptyStack }
  else s

/-- Step for the section push (guarded by `requireSectionHeading`). -/
def stSection (o : Rules) (tag : String) (pos : Pos) (s : HState) : HState :=
  if o.requireSectionHeading ∧ tag = "section" then
    { s with sectionStack :=
      { foundHeading := false, line := pos.line, column := pos.column } :: s.sectionStack }
  else s

/-- All rule blocks run at an element's opening, in source order
(src/linter.ts lines 137-241).  The element itself is already on `tagStack`. -/
def hOpen (o : Rules) (tag : String) (attrs : List (String × String)) (pos : Pos)
    (s : HState) : HState :=
  stSection o tag pos (stEmptyInline o tag pos (stCaption tag (stTable tag pos
    (stButton o tag attrs pos (stAnchor o tag attrs pos (stListNesting o tag pos
      (stAltText o tag attrs pos (stHeadingOrder o tag pos (stSingleH1 o tag pos
        (stLabelFor o tag attrs pos (stImageInput o tag attrs pos (stIframe o tag attrs pos
          (stHtmlLang o tag attrs pos (stUniqueIds o attrs pos (stNavLink tag
            (stNav tag pos (stLabel tag attrs s)))))))))))))))))

/-- Closing block for empty inline tags: pop, report if no text was seen.
A pop from an empty stack is a no-op (`if (e && ...)`). -/
def ctEmptyInline (o : Rules) (tag : String) (s : HState) : HState :=
  if o.preventEmptyInlineTags ∧ tag ∈ inlineTagsList then
    match s.emptyStack with
    | [] => s
    | e :: rest =>
      if e.foundText then { s with emptyStack := rest }
      else { s with emptyStack := rest, results := s.results ++
          [mkRes { line := e.line, column := e.column }
            ("<" ++ tag ++ "> tag should not be empty") "preventEmptyInlineTags"] }
  else s

/-- Closing block for `requireLinkText`. -/
def ctLinkText (o : Rules) (tag : String) (s : HState) : HState :=
  if o.requireLinkText ∧ tag = "a" then
    match s.anchorStack with
    | [] => s
    | a :: rest =>
      if a.foundText then { s with anchorStack := rest }
      else { s with anchorStack := rest, results := s.results ++
          [mkRes { line := a.line, column := a.column } "<a> tag missing link text" "requireLinkText"] }
  else s

/-- Closing block for `<nav>`: the pop is unconditional, the report is
guarded by `requireNavLinks`. -/
def ctNav (o : Rules) (tag : String) (s : HState) : HState :=
  if tag = "nav" then
    match s.navStack with
    | [] => s
    | n :: rest =>
      if o.requireNavLinks ∧ n.hasLink = false then
        { s with navStack := rest, results := s.results ++
            [mkRes { line := n.line, column := n.column } "<nav> contains no links" "requireNavLinks"] }
      else { s with navStack := rest }
  else s

/-- Closing block for `requireButtonText`. -/
def ctButton (o : Rules) (tag : String) (s : HState) : HState :=
  if o.requireButtonText ∧ tag = "button" then
    match s.buttonStack with
    | [] => s
    | b :: rest =>
      if b.foundText then { s with buttonStack := rest }
      else
        if b.hadEmptyAria then
          { s with buttonStack := rest, results := s.results ++
              [mkRes { line := b.line, column := b.column }
                "<button> aria-label attribute is empty" "requireButtonText"] }
        else
          { s with buttonStack := rest, results := s.results ++
              [mkRes { line := b.line, column := b.column }
                "<button> missing accessible text" "requireButtonText"] }
  else s

/-- Closing block for `requireSectionHeading`. -/
def ctSection (o : Rules) (tag : String) (s : HState) : HState :=
  if o.requireSectionHeading ∧ tag = "section" then
    match s.sectionStack with
    | [] => s
    | e :: rest =>
      if e.foundHeading then { s with sectionStack := rest }
      else { s with sectionStack := rest, results := s.results ++
          [mkRes { line := e.line, column := e.column }
            "<section> missing heading (<h1>-<h6>)" "requireSectionHeading"] }
  else s

/-- Closing block for `requireTableCaption`. -/
def ctTable (o : Rules) (tag : String) (s : HState) : HState :=
  if o.requireTableCaption ∧ tag = "table" then
    match s.tableStack with
    | [] => s
    | e :: rest =>
      if e.foundCaption then { s with tableStack := rest }
      else { s with tableStack := rest, results := s.results ++
          [mkRes { line := e.line, column := e.column }
            "<table> missing <caption>" "requireTableCaption"] }
  else s

/-- All closing-tag blocks, in source order (src/linter.ts lines 251-287). -/
def hClose (o : Rules) (tag : String) (s : HState) : HState :=
  ctTable o tag (ctSection o tag (ctButton o tag (ctNav o tag
    (ctLinkText o tag (ctEmptyInline o tag s)))))

/-- Comment handling: the `zemdomu-` directive protocol. -/
def stComment (txt : String) (s : HState) : HState :=
  let t := trimStr txt
  if startsWithStr t "zemdomu-disable-next" then { s with ignoreNext := true }
  else if startsWithStr t "zemdomu-disable" then { s with ignoreBlock := true }
  else if startsWithStr t "zemdomu-enable" then { s with ignoreBlock := false }
  else s

/-- Text handling: non-whitespace text marks the enclosing anchor, inline
tag and button as having content (skipped entirely inside a disable block). -/
def stText (txt : String) (s : HState) : HState :=
  if s.ignoreBlock then s
  else
    if trimStr txt ≠ "" then
      { s with anchorStack := markTxtTop s.anchorStack,
               emptyStack := markEmpTop s.emptyStack,
               buttonStack := markBtnTop s.buttonStack }
    else s

/-- Push the current element on `tagStack`. -/
def pushTag (tag : String) (pos : Pos) (s : HState) : HState :=
  { s with tagStack := { tag := tag, line := pos.line, column := pos.column } :: s.tagStack }

/-- Pop `tagStack` (no-op on empty, like `Array.prototype.pop`). -/
def popTag (s : HState) : HState :=
  { s with tagStack := s.tagStack.tail }

mutual

/-- The recursive `traverse` of `lintHtmlString` on one node.  `gp` converts
a start index to a (line, column) position (`getPos` closes over the input
text). -/
def hNode (o : Rules) (gp : Nat → Pos) (s : HState) : Node → HState
  | .comment txt _ => stComment txt s
  | .text txt _ => stText txt s
  | .element tagName attrs children idx _ =>
    let tag := lowerStr tagName
    let pos := gp idx
    let s0 := pushTag tag pos s
    if s0.ignoreNext then popTag { s0 with ignoreNext := false }
    else if s0.ignoreBlock then popTag (hList o gp s0 children)
    else
      let s1 := hOpen o tag attrs pos s0
      let s2 := hList o gp s1 children
      if s2.ignoreBlock then popTag s2
      else popTag (hClose o tag s2)

/-- `node.children.forEach(traverse)`. -/
def hList (o : Rules) (gp : Nat → Pos) (s : HState) : List Node → HState
  | [] => s
  | n :: ns => hList o gp (hNode o gp s n) ns

end

/-- Final drain of `navStack` after the traversal (the trailing `while` loop
of `lintHtmlString`): entries are popped top-first, each link-less `<nav>`
yielding one result. -/
def drainNav (o : Rules) (s : HState) : List LintResult :=
  if o.requireNavLinks then
    (s.navStack.filter (fun n => n.hasLink = false)).map
      (fun n => mkRes { line := n.line, column := n.column } "<nav> contains no links" "requireNavLinks")
  else []

/-- `lintHtmlString` run over an already-parsed forest (the children of the
synthetic root): traversal followed by the nav drain. -/
def lintHtmlTree (o : LinterOptions) (gp : Nat → Pos) (roots : List Node) : List LintResult :=
  let s := hList o.rules gp initHState roots
  s.results ++ drainNav o.rules s

/-- Labels registered by one element open (`<label for=...>` with a truthy
value), as a list to append. -/
def labelsOfAttrs (tag : String) (attrs : List (String × String)) : List String :=
  if tag = "label" then
    match attrGet attrs "for" with
    | some v => if v ≠ "" then [v] else []
    | none => []
  else []

mutual

/-- Number of `<h1>` elements opening in a node (case-insensitive tag). -/
def cntH1 : Node → Nat
  | .element t _ cs _ _ => (if lowerStr t = "h1" then 1 else 0) + cntH1L cs
  | .text _ _ => 0
  | .comment _ _ => 0

/-- Number of `<h1>` elements opening in a forest. -/
def cntH1L : List Node → Nat
  | [] => 0
  | n :: ns => cntH1 n + cntH1L ns

end

mutual

/-- Label targets registered during a node's pre-order traversal. -/
def lblsN : Node → List String
  | .element t attrs cs _ _ => labelsOfAttrs (lowerStr t) attrs ++ lblsL cs
  | .text _ _ => []
  | .comment _ _ => []

/-- Label targets registered during a forest's pre-order traversal. -/
def lblsL : List Node → List String
  | [] => []
  | n :: ns => lblsN n ++ lblsL ns

end

/-- Is an optional parent tag one of `ul`, `ol`? -/
def parentTagOkB (p : Option String) : Bool :=
  match p with
  | some t => t = "ul" || t = "ol"
  | none => false

mutual

/-- Specification count of `enforceListNesting` violations: `<li>` elements
whose nearest enclosing element (the `parent` argument, a lower-cased tag)
is not `ul`/`ol` — including `<li>` with no enclosing element at all. -/
def liSpecN (parent : Option String) : Node → Nat
  | .element t _ cs _ _ =>
    let tg := lowerStr t
    (if tg = "li" ∧ parentTagOkB parent = false then 1 else 0) + liSpecL (some tg) cs
  | .text _ _ => 0
  | .comment _ _ => 0

/-- Forest version of `liSpecN` (all nodes share the same parent). -/
def liSpecL (parent : Option String) : List Node → Nat
  | [] => 0
  | n :: ns => liSpecN parent n + liSpecL parent ns

end

mutual

/-- Specification count of `requireLabelForFormControls` violations given
the label targets `L` registered before this node in pre-order: a form
control with no non-empty `aria-label` and no `id` registered in the labels
seen so far (labels appearing later in the document do not count). -/
def lfSpecN (L : List String) : Node → Nat
  | .element t attrs cs _ _ =>
    let tg := lowerStr t
    let L1 := L ++ labelsOfAttrs tg attrs
    (if tg ∈ ["input", "select", "textarea"] ∧ ariaMissingB attrs = true ∧
        labelViolB attrs L1 = true then 1 else 0) + lfSpecL L1 cs
  | .text _ _ => 0
  | .comment _ _ => 0

/-- Forest version of `lfSpecN`, threading the accumulated label set. -/
def lfSpecL (L : List String) : List Node → Nat
  | [] => 0
  | n :: ns => lfSpecN L n + lfSpecL (L ++ lblsN n) ns

end

mutual

/-- A node contains no `zemdomu-disable` / `zemdomu-disable-next` directive
comment (so the suppression flags can never be set during its traversal). -/
def noDisableN : Node → Bool
  | .element _ _ cs _ _ => noDisableL cs
  | .text _ _ => true
  | .comment t _ => !(startsWithStr (trimStr t) "zemdomu-disable")

/-- Forest version of `noDisableN`. -/
def noDisableL : List Node → Bool
  | [] => true
  | n :: ns => noDisableN n && noDisableL ns

end

/-- Number of `singleH1` results emitted by a run of `k` further `<h1>`
openings starting from a running count of `c`: each `<h1>` beyond the first
overall fires once. -/
def firedH1 (c k : Nat) : Nat := c + k - max c 1

/-
The lightweight HTML tokenizer and tree builder (src/simpleHtmlParser.ts).
The tokenizer is a `while (i < html.length)` loop; one iteration is
`tokenizeStep` below, returning the produced token and the new value of `i`.
The loop is not structurally bounded (nothing forces `i` to grow), so the
token list is produced under a fuel bound.
-/

/-- Word character class of the source's `[\w-:]` regex bracket
(`\w` plus `-` and `:`). -/
def isWordCh (c : Char) : Bool :=
  c.isAlphanum || c = '_' || c = '-' || c = ':'

/-- Index (relative) of the first occurrence of `pat` in a list, as JS
`String.prototype.indexOf` (restricted to a suffix by the caller);
`none` models `-1`. -/
def findSub (pat : List Char) : List Char → Option Nat
  | [] => if pat = [] then some 0 else none
  | c :: rest =>
    if (c :: rest).take pat.length = pat then some 0
    else (findSub pat rest).map (· + 1)

/-- A token of the HTML tokenizer. -/
inductive Token where
  | openTag (tag : String) (attrs : List (String × String)) (selfClosing : Bool) (index : Nat)
  | closeTag (tag : String) (index : Nat)
  | textTok (txt : String) (index : Nat)
  | commentTok (txt : String) (index : Nat)
deriving Repr

/-- Strip one leading and one trailing quote character, modelling
`value.replace(/^['"]|['"]$/g, '')`. -/
def stripQuotes (cs : List Char) : List Char :=
  let cs1 := match cs with
    | c :: rest => if c = '"' ∨ c = '\'' then rest else cs
    | [] => []
  match cs1.getLast? with
  | some c => if c = '"' ∨ c = '\'' then cs1.dropLast else cs1
  | none => cs1

/-- One scan step of the `parseAttributes` global-regex loop: skip to the
next attribute-name character, read the name, and try the optional
`\s*=\s*("[^"]*"|'[^']*'|[^\s"'>]+)` value part.  Returns the recognised
binding and the remaining input.  The JS regex engine consumes at least one
character per match, so a fuel of the input length always suffices. -/
def parseAttrsAux : Nat → List Char → List (String × String)
  | 0, _ => []
  | fuel + 1, cs =>
    let cs0 := cs.dropWhile (fun c => !isWordCh c)
    match cs0 with
    | [] => []
    | _ =>
      let name := cs0.takeWhile isWordCh
      let r := cs0.drop name.length
      let r1 := r.dropWhile isJsWS
      let valued : Option (List Char × List Char) :=
        match r1 with
        | '=' :: r2 =>
          let r3 := r2.dropWhile isJsWS
          match r3 with
          | '"' :: r4 =>
            match findSub ['"'] r4 with
            | some k => some (r4.take k, r4.drop (k + 1))
            | none => none
          | '\'' :: r4 =>
            match findSub ['\''] r4 with
            | some k => some (r4.take k, r4.drop (k + 1))
            | none => none
          | _ =>
            let v := r3.takeWhile (fun c => !isJsWS c && c ≠ '"' && c ≠ '\'' && c ≠ '>')
            if v = [] then none else some (v, r3.drop v.length)
        | _ => none
      match valued with
      | some (v, rest) => (⟨name⟩, ⟨stripQuotes v⟩) :: parseAttrsAux fuel rest
      | none => (⟨name⟩, "") :: parseAttrsAux fuel r

/-- `parseAttributes` of src/simpleHtmlParser.ts. -/
def parseAttributes (cs : List Char) : List (String × String) :=
  parseAttrsAux cs.length cs

/-- Try the close-tag regex `^<\/(\s*[\w-:]+)\s*>` on a suffix; returns the
(trimmed, lower-cased) tag and the match length. -/
def matchClose : List Char → Option (String × Nat)
  | '<' :: '/' :: rest =>
    let ws1 := rest.takeWhile isJsWS
    let r1 := rest.drop ws1.length
    let name := r1.takeWhile isWordCh
    if name = [] then none
    else
      let r2 := r1.drop name.length
      let ws2 := r2.takeWhile isJsWS
      match r2.drop ws2.length with
      | '>' :: _ => some (lowerStr ⟨name⟩, 2 + ws1.length + name.length + ws2.length + 1)
      | _ => none
  | _ => none

/-- Try the open-tag regex `^<\s*([\w-:]+)([^>]*?)(\/)?>` on a suffix;
returns tag (lower-cased), attributes, the self-closing flag, and the match
length.  The lazy middle group together with the excluded `>` means: take
everything up to the first `>`, treating a trailing `/` as the self-closing
marker. -/
def matchOpen : List Char → Option (String × List (String × String) × Bool × Nat)
  | '<' :: rest =>
    let ws := rest.takeWhile isJsWS
    let r1 := rest.drop ws.length
    let name := r1.takeWhile isWordCh
    if name = [] then none
    else
      let r2 := r1.drop name.length
      match findSub ['>'] r2 with
      | none => none
      | some k =>
        let body := r2.take k
        if body.getLast? = some '/' then
          some (lowerStr ⟨name⟩, parseAttributes body.dropLast, true,
            1 + ws.length + name.length + k + 1)
        else
          some (lowerStr ⟨name⟩, parseAttributes body, false,
            1 + ws.length + name.length + k + 1)
  | _ => none

/-- One iteration of the tokenizer's `while (i < html.length)` loop:
the produced token and the next value of `i`; `none` when the loop exits. -/
def tokenizeStep (cs : List Char) (i : Nat) : Option (Token × Nat) :=
  if i < cs.length then
    let suf := cs.drop i
    if suf.take 4 = ['<', '!', '-', '-'] then
      match findSub ['-', '-', '>'] (cs.drop (i + 4)) with
      | some e => some (.commentTok ⟨(cs.drop (i + 4)).take e⟩ i, i + 4 + e + 3)
      | none => some (.commentTok ⟨cs.drop (i + 4)⟩ i, cs.length)
    else
      if suf.head? = some '<' then
        match matchClose suf with
        | some (tag, len) => some (.closeTag tag i, i + len)
        | none =>
          match matchOpen suf with
          | some (tag, attrs, sc, len) => some (.openTag tag attrs sc i, i + len)
          | none =>
            let endAbs := match findSub ['<'] suf with
              | none => cs.length
              | some k => i + k
            some (.textTok ⟨suf.take (endAbs - i)⟩ i, endAbs)
      else
        let endAbs := match findSub ['<'] suf with
          | none => cs.length
          | some k => i + k
        some (.textTok ⟨suf.take (endAbs - i)⟩ i, endAbs)
  else none

/-- Run the tokenizer loop with the given fuel from position `i`; `none`
means the loop did not exit within `fuel` iterations. -/
def tokensFuel (cs : List Char) : Nat → Nat → Option (List Token)
  | fuel, i =>
    match tokenizeStep cs i with
    | none => some []
    | some (t, i') =>
      match fuel with
      | 0 => none
      | fuel' + 1 => (tokensFuel cs fuel' i').map (t :: ·)

/-- A frame of the tree-builder stack: an element still open, with its
children accumulated in reverse. -/
structure OpenFrame where
  tagName : String
  attrs : List (String × String)
  startIndex : Nat
  childrenRev : List Node
deriving Repr

/-- Append a finished child node to the innermost open frame. -/
def appendChild (n : Node) : List OpenFrame → List OpenFrame
  | [] => []
  | f :: fs => { f with childrenRev := n :: f.childrenRev } :: fs

/-- Process one token of the `parse` loop of src/simpleHtmlParser.ts.
`close` pops one level unless only the synthetic root remains. -/
def buildStep (stack : List OpenFrame) : Token → List OpenFrame
  | .openTag tag attrs true idx => appendChild (.element tag attrs [] idx true) stack
  | .openTag tag attrs false idx =>
    { tagName := tag, attrs := attrs, startIndex := idx, childrenRev := [] } :: stack
  | .closeTag _ _ =>
    match stack with
    | f :: g :: rest =>
      appendChild (.element f.tagName f.attrs f.childrenRev.reverse f.startIndex false) (g :: rest)
    | other => other
  | .textTok txt idx => appendChild (.text txt idx) stack
  | .commentTok txt idx => appendChild (.comment txt idx) stack

/-- Close every still-open frame at end of input.  In the source the nodes
were already linked into their parents' `children` arrays when pushed, so
unterminated elements stay in the tree; functionally this is a final unwind. -/
def buildFinish : List OpenFrame → Node
  | [] => .element "root" [] [] 0 false
  | [f] => .element f.tagName f.attrs f.childrenRev.reverse f.startIndex false
  | f :: g :: rest =>
    buildFinish
      ({ g with childrenRev :=
          Node.element f.tagName f.attrs f.childrenRev.reverse f.startIndex false :: g.childrenRev }
        :: rest)
termination_by l => l.length
decreasing_by simp

/-- The tree builder `parse` of src/simpleHtmlParser.ts over a token list. -/
def buildTree (toks : List Token) : Node :=
  buildFinish (toks.foldl buildStep
    [{ tagName := "root", attrs := [], startIndex := 0, childrenRev := [] }])

/-- `parse(html)` under a tokenizer fuel bound. -/
def parseHtmlFuel (html : String) (fuel : Nat) : Option Node :=
  (tokensFuel html.data fuel 0).map buildTree

/-- Split at newline characters, as JS `String.prototype.split('\n')`. -/
def splitNl : List Char → List (List Char)
  | [] => [[]]
  | c :: cs =>
    match splitNl cs with
    | [] => [[c]]
    | l :: ls => if c = '\n' then [] :: l :: ls else (c :: l) :: ls

/-- The `getPos` helper of `lintHtmlString`: line/column of a character
index, 0-based. -/
def getPos (html : String) (idx : Nat) : Pos :=
  let lines := splitNl (html.data.take idx)
  { line := lines.length - 1, column := (lines.getLast?.getD []).length }

/-- Children of a parsed root (`root.children.forEach(traverse)`). -/
def rootChildren : Node → List Node
  | .element _ _ cs _ _ => cs
  | _ => []

/-- The HTML branch of `lintHtml` (i.e. `lintHtmlString`), from raw text,
under a tokenizer fuel bound; `none` means the parse loop did not finish. -/
def lintHtmlStringFuel (html : String) (o : LinterOptions) (fuel : Nat) :
    Option (List LintResult) :=
  (parseHtmlFuel html fuel).map (fun root => lintHtmlTree o (getPos html) (rootChildren root))

/-
The JSX/TSX backend (`lintJsx` of src/linter.ts).  Parsing is delegated to
Babel; we model the fragment of the Babel AST the rule logic consumes: JSX
elements with identifier names, attributes whose values are string literals,
expression containers (dynamic values) or absent, and child nodes (elements,
text, expression containers).  Lines are 1-based as in Babel locations.
An element whose direct AST parent is not a JSX element (a fragment, an
expression, a statement...) is modelled with parent `none`.
-/

/-- Value of a JSX attribute: string literal, expression container
(dynamic, carrying its own start line for the `JSXExpressionContainer`
visitor), or absent (`<img alt />`). -/
inductive JAttrVal where
  | lit (s : String)
  | dyn (line : Nat)
  | nul
deriving Repr, DecidableEq

mutual

/-- A JSX element: identifier name, attributes, opening-element start
location (1-based line, 0-based column), children. -/
inductive JElem where
  | mk (name : String) (attrs : List (String × JAttrVal)) (line : Nat) (column : Nat)
      (children : List JChild)

/-- A child of a JSX element. -/
inductive JChild where
  | celem (e : JElem)
  | ctext (txt : String) (line : Nat)
  | cexpr (line : Nat) (inner : List JElem)

end

/-- Name of a JSX element. -/
def JElem.name : JElem → String
  | .mk n _ _ _ _ => n

/-- Attributes of a JSX element. -/
def JElem.attrs : JElem → List (String × JAttrVal)
  | .mk _ a _ _ _ => a

/-- Start line (1-based) of a JSX element's opening element. -/
def JElem.line : JElem → Nat
  | .mk _ _ l _ _ => l

/-- Start column (0-based) of a JSX element's opening element. -/
def JElem.column : JElem → Nat
  | .mk _ _ _ c _ => c

/-- Children of a JSX element. -/
def JElem.children : JElem → List JChild
  | .mk _ _ _ _ cs => cs

/-- A comment collected by Babel (`ast.comments`), with its trimmed-relevant
value and start/end lines. -/
structure JComment where
  value : String
  startLine : Nat
  endLine : Nat
deriving Repr, DecidableEq

/-- `Number.MAX_SAFE_INTEGER`. -/
def maxSafeInteger : Nat := 2 ^ 53 - 1

/-- The directive ranges computed from the comment list (src/linter.ts lines
313-335): lines disabled by `zemdomu-disable-next`, and closed (or
end-of-file) `zemdomu-disable`/`zemdomu-enable` blocks. -/
def computeDisables (comments : List JComment) : List Nat × List (Nat × Nat) :=
  let step := fun (acc : List Nat × List (Nat × Nat) × Option Nat) (c : JComment) =>
    let (nextLines, blocks, blockStart) := acc
    let val := trimStr c.value
    if startsWithStr val "zemdomu-disable-next" then
      (nextLines ++ [c.endLine + 1], blocks, blockStart)
    else if startsWithStr val "zemdomu-disable" then
      (nextLines, blocks, some c.endLine)
    else if startsWithStr val "zemdomu-enable" then
      match blockStart with
      | some b => (nextLines, blocks ++ [(b, c.startLine)], none)
      | none => (nextLines, blocks, none)
    else (nextLines, blocks, blockStart)
  let (nextLines, blocks, blockStart) := comments.foldl step ([], [], none)
  match blockStart with
  | some b => (nextLines, blocks ++ [(b, maxSafeInteger)])
  | none => (nextLines, blocks)

/-- The `isIgnored` predicate of `lintJsx` on a 1-based line. -/
def isIgnoredOf (comments : List JComment) (line : Nat) : Bool :=
  let (nextLines, blocks) := computeDisables comments
  nextLines.contains line || blocks.any (fun b => b.1 ≤ line && line ≤ b.2)

/-- The mutable state of the `lintJsx` traversal. -/
structure JState where
  results : List LintResult
  lastHeadingLevel : Nat
  h1Count : Nat
  sectionStack : List SecEntry
  anchorStack : List TxtEntry
  buttonStack : List BtnEntry
  tableStack : List TblEntry
  emptyStack : List EmpEntry
  labels : List String
  htmlSeen : Bool
  navStack : List NavEntry
  ids : List (String × Pos)
deriving Repr, DecidableEq

/-- Initial state of a `lintJsx` run. -/
def initJState : JState :=
  { results := [], lastHeadingLevel := 0, h1Count := 0, sectionStack := []
    anchorStack := [], buttonStack := [], tableStack := [], emptyStack := []
    labels := [], htmlSeen := false, navStack := [], ids := [] }

/-- Last string-literal value of an attribute with the given name
(a `forEach` that assigns only on `isStringLiteral(attr.value)`). -/
def lastLitAttr (attrs : List (String × JAttrVal)) (name : String) : Option String :=
  attrs.foldl
    (fun acc p =>
      if p.1 = name then
        match p.2 with
        | .lit v => some v
        | _ => acc
      else acc)
    none

/-- Last attribute with the given name, whatever its value kind
(a `forEach` that assigns unconditionally). -/
def lastAttr (attrs : List (String × JAttrVal)) (name : String) : Option JAttrVal :=
  attrs.foldl (fun acc p => if p.1 = name then some p.2 else acc) none

/-- All string-literal `for` attribute values, in attribute order.  Note the
source registers these for every element, with no tag check. -/
def forLits (attrs : List (String × JAttrVal)) : List String :=
  attrs.filterMap
    (fun p =>
      if p.1 = "for" then
        match p.2 with
        | .lit v => some v
        | _ => none
      else none)

/-- `some` attribute of the given name with a non-blank string literal value. -/
def hasNonBlankLit (attrs : List (String × JAttrVal)) (name : String) : Bool :=
  attrs.any (fun p => p.1 = name &&
    match p.2 with
    | .lit v => trimStr v ≠ ""
    | _ => false)

/-- Step for the JSX label registration (every element's string-literal
`for` attributes). -/
def jsLabels (attrs : List (String × JAttrVal)) (s : JState) : JState :=
  { s with labels := s.labels ++ forLits attrs }

/-- JSX step: `if (tag === 'nav') navStack.push(...)`. -/
def jsNav (tag : String) (pos : Pos) (s : JState) : JState :=
  if tag = "nav" then
    { s with navStack := { line := pos.line, column := pos.column, hasLink := false } :: s.navStack }
  else s

/-- JSX step: `if (tag === 'a' && navStack.length) navStack[top].hasLink = true`. -/
def jsNavLink (tag : String) (s : JState) : JState :=
  if tag = "a" then { s with navStack := markNavTop s.navStack } else s

/-- JSX step for `uniqueIds`: only string-literal, truthy `id` values are
tracked. -/
def jsUniqueIds (o : Rules) (attrs : List (String × JAttrVal)) (pos : Pos) (s : JState) : JState :=
  if o.uniqueIds then
    match lastLitAttr attrs "id" with
    | some idVal =>
      if idVal ≠ "" then
        if s.ids.any (fun p => p.1 = idVal) then
          { s with results := s.results ++
              [mkRes pos ("Duplicate id \"" ++ idVal ++ "\"") "uniqueIds"] }
        else { s with ids := s.ids ++ [(idVal, pos)] }
      else s
    | none => s
  else s

/-- JSX step for `requireHtmlLang` (single message in this backend). -/
def jsHtmlLang (o : Rules) (tag : String) (attrs : List (String × JAttrVal)) (pos : Pos)
    (s : JState) : JState :=
  if o.requireHtmlLang ∧ tag = "html" ∧ s.htmlSeen = false then
    let s1 := { s with htmlSeen := true }
    if hasNonBlankLit attrs "lang" then s1
    else { s1 with results := s1.results ++
        [mkRes pos "<html> element missing lang attribute" "requireHtmlLang"] }
  else s

/-- JSX step for `requireIframeTitle` (single message in this backend). -/
def jsIframe (o : Rules) (tag : String) (attrs : List (String × JAttrVal)) (pos : Pos)
    (s : JState) : JState :=
  if o.requireIframeTitle ∧ tag = "iframe" then
    if hasNonBlankLit attrs "title" then s
    else { s with results := s.results ++
        [mkRes pos "<iframe> missing title attribute" "requireIframeTitle"] }
  else s

/-- JSX step for `requireImageInputAlt`: `isImage` from the last
string-literal `type`, `altVal` from the last string-literal `alt`; a
dynamic `alt` therefore leaves `altVal` unset. -/
def jsImageInput (o : Rules) (tag : String) (attrs : List (String × JAttrVal)) (pos : Pos)
    (s : JState) : JState :=
  if o.requireImageInputAlt ∧ tag = "input" then
    let isImage := attrs.foldl
      (fun acc p =>
        if p.1 = "type" then
          match p.2 with
          | .lit ty => lowerStr ty = "image"
          | _ => acc
        else acc)
      false
    let altVal := lastLitAttr attrs "alt"
    let altMissing : Bool := match altVal with
      | none => true
      | some a => trimStr a = ""
    if isImage ∧ altMissing then
      { s with results := s.results ++
          [mkRes pos "<input type=\"image\"> missing alt attribute" "requireImageInputAlt"] }
    else s
  else s

/-- JSX `!ariaVal || !ariaVal.trim()` on the last string-literal
`aria-label`. -/
def jAriaMissingB (attrs : List (String × JAttrVal)) : Bool :=
  match lastLitAttr attrs "aria-label" with
  | none => true
  | some a => trimStr a = ""

/-- JSX labelling violation given the registered targets `L`. -/
def jLabelViolB (attrs : List (String × JAttrVal)) (L : List String) : Bool :=
  match lastLitAttr attrs "id" with
  | none => true
  | some id => id = "" || !(L.contains id)

/-- Message pushed by the JSX `requireLabelForFormControls` block. -/
def jLabelForMsg (attrs : List (String × JAttrVal)) : String :=
  match lastLitAttr attrs "id" with
  | none => "Form control missing id or aria-label"
  | some id =>
    if id = "" then "Form control missing id or aria-label"
    else "Form control with id=\"" ++ id ++ "\" missing <label for=\"" ++ id ++ "\">"

/-- JSX step for `requireLabelForFormControls`. -/
def jsLabelFor (o : Rules) (tag : String) (attrs : List (String × JAttrVal)) (pos : Pos)
    (s : JState) : JState :=
  if o.requireLabelForFormControls ∧ tag ∈ ["input", "select", "textarea"] then
    if jAriaMissingB attrs ∧ jLabelViolB attrs s.labels then
      { s with results := s.results ++
          [mkRes pos (jLabelForMsg attrs) "requireLabelForFormControls"] }
    else s
  else s

/-- JSX step for `singleH1`. -/
def jsSingleH1 (o : Rules) (tag : String) (pos : Pos) (s : JState) : JState :=
  if o.singleH1 ∧ tag = "h1" then
    let s1 := { s with h1Count := s.h1Count + 1 }
    if s1.h1Count > 1 then
      { s1 with results := s1.results ++
          [mkRes pos "Only one <h1> allowed per document" "singleH1"] }
    else s1
  else s

/-- JSX step for `enforceHeadingOrder`. -/
def jsHeadingOrder (o : Rules) (tag : String) (pos : Pos) (s : JState) : JState :=
  if o.enforceHeadingOrder then
    match headingLevel tag with
    | some lvl =>
      let s1 :=
        if s.lastHeadingLevel ≠ 0 ∧ lvl > s.lastHeadingLevel + 1 then
          { s with results := s.results ++
              [mkRes pos ("Heading level skipped: <" ++ tag ++ "> after <h" ++
                toString s.lastHeadingLevel ++ ">") "enforceHeadingOrder"] }
        else s
      { s1 with lastHeadingLevel := lvl, sectionStack := markSecTop s1.sectionStack }
    | none => s
  else s

/-- JSX step for `requireAltText`: last `alt` attribute of any kind; a
non-literal (dynamic or bare) value is reported as empty. -/
def jsAltText (o : Rules) (tag : String) (attrs : List (String × JAttrVal)) (pos : Pos)
    (s : JState) : JState :=
  if o.requireAltText ∧ tag = "img" then
    match lastAttr attrs "alt" with
    | none => { s with results := s.results ++
        [mkRes pos "<img> tag missing alt attribute" "requireAltText"] }
    | some v =>
      match v with
      | .lit a =>
        if trimStr a = "" then
          { s with results := s.results ++
              [mkRes pos "<img> alt attribute is empty" "requireAltText"] }
        else s
      | _ => { s with results := s.results ++
          [mkRes pos "<img> alt attribute is empty" "requireAltText"] }
  else s

/-- JSX step for `enforceListNesting`: only checked when the direct AST
parent is a JSX element with an identifier name (`parent = some rawName`);
with any other parent the check is skipped entirely. -/
def jsListNesting (o : Rules) (tag : String) (parent : Option String) (pos : Pos)
    (s : JState) : JState :=
  if o.enforceListNesting ∧ tag = "li" then
    match parent with
    | some p =>
      if lowerStr p ∈ ["ul", "ol"] then s
      else { s with results := s.results ++
          [mkRes pos "<li> must be inside a <ul> or <ol>" "enforceListNesting"] }
    | none => s
  else s

/-- JSX step for anchors: push, then `requireHrefOnAnchors` on the first
`href` attribute (`attributes.find`); a dynamic or bare value is reported. -/
def jsAnchor (o : Rules) (tag : String) (attrs : List (String × JAttrVal)) (pos : Pos)
    (s : JState) : JState :=
  if tag = "a" then
    let s1 := { s with anchorStack :=
      { foundText := false, line := pos.line, column := pos.column } :: s.anchorStack }
    if o.requireHrefOnAnchors then
      let hrefVal := (attrs.find? (fun p => p.1 = "href")).map (fun p => p.2)
      let bad := match hrefVal with
        | none => true
        | some (.lit h) => trimStr h = ""
        | some _ => true
      if bad then
        { s1 with results := s1.results ++
            [mkRes pos "<a> tag missing non-empty href attribute" "requireHrefOnAnchors"] }
      else s1
    else s1
  else s

/-- JSX step for the button push: `hasAria` / `emptyAria` from the
string-literal `aria-label` attributes. -/
def jsButton (o : Rules) (tag : String) (attrs : List (String × JAttrVal)) (pos : Pos)
    (s : JState) : JState :=
  if o.requireButtonText ∧ tag = "button" then
    let hasAria := attrs.any (fun p => p.1 = "aria-label" &&
      match p.2 with
      | .lit a => trimStr a ≠ ""
      | _ => false)
    let emptyAria := attrs.any (fun p => p.1 = "aria-label" &&
      match p.2 with
      | .lit a => trimStr a = ""
      | _ => false)
    { s with buttonStack :=
      { foundText := hasAria, line := pos.line, column := pos.column,
        hadEmptyAria := emptyAria } :: s.buttonStack }
  else s

/-- JSX step: `if (tag === 'table') tableStack.push(...)`. -/
def jsTable (tag : String) (pos : Pos) (s : JState) : JState :=
  if tag = "table" then
    { s with tableStack :=
      { foundCaption := false, line := pos.line, column := pos.column } :: s.tableStack }
  else s

/-- JSX step: caption marks the enclosing table. -/
def jsCaption (tag : String) (s : JState) : JState :=
  if tag = "caption" then { s with tableStack := markTblTop s.tableStack } else s

/-- JSX step: empty-inline push. -/
def jsEmptyInline (o : Rules) (tag : String) (pos : Pos) (s : JState) : JState :=
  if o.preventEmptyInlineTags ∧ tag ∈ inlineTagsList then
    { s with emptyStack :=
      { tag := tag, foundText := false, line := pos.line, column := pos.column } :: s.emptyStack }
  else s

/-- JSX step: section push. -/
def jsSection (o : Rules) (tag : String) (pos : Pos) (s : JState) : JState :=
  if o.requireSectionHeading ∧ tag = "section" then
    { s with sectionStack :=
      { foundHeading := false, line := pos.line, column := pos.column } :: s.sectionStack }
  else s

/-- The `enter` visitor of `lintJsx` for a (non-ignored) JSX element, all
rule blocks in source order (src/linter.ts lines 356-532). -/
def jEnter (o : Rules) (parent : Option String) (rawName : String)
    (attrs : List (String × JAttrVal)) (pos : Pos) (s : JState) : JState :=
  let tag := lowerStr rawName
  jsSection o tag pos (jsEmptyInline o tag pos (jsCaption tag (jsTable tag pos
    (jsButton o tag attrs pos (jsAnchor o tag attrs pos (jsListNesting o tag parent pos
      (jsAltText o tag attrs pos (jsHeadingOrder o tag pos (jsSingleH1 o tag pos
        (jsLabelFor o tag attrs pos (jsImageInput o tag attrs pos (jsIframe o tag attrs pos
          (jsHtmlLang o tag attrs pos (jsUniqueIds o attrs pos (jsNavLink tag
            (jsNav tag pos (jsLabels attrs s)))))))))))))))))

/-- JSX closing block for empty inline tags. -/
def jctEmptyInline (o : Rules) (tag : String) (s : JState) : JState :=
  if o.preventEmptyInlineTags ∧ tag ∈ inlineTagsList then
    match s.emptyStack with
    | [] => s
    | e :: rest =>
      if e.foundText then { s with emptyStack := rest }
      else { s with emptyStack := rest, results := s.results ++
          [mkRes { line := e.line, column := e.column }
            ("<" ++ tag ++ "> tag should not be empty") "preventEmptyInlineTags"] }
  else s

/-- JSX closing block for `requireLinkText`. -/
def jctLinkText (o : Rules) (tag : String) (s : JState) : JState :=
  if o.requireLinkText ∧ tag = "a" then
    match s.anchorStack with
    | [] => s
    | a :: rest =>
      if a.foundText then { s with anchorStack := rest }
      else { s with anchorStack := rest, results := s.results ++
          [mkRes { line := a.line, column := a.column } "<a> tag missing link text" "requireLinkText"] }
  else s

/-- JSX closing block for `<nav>`. -/
def jctNav (o : Rules) (tag : String) (s : JState) : JState :=
  if tag = "nav" then
    match s.navStack with
    | [] => s
    | n :: rest =>
      if o.requireNavLinks ∧ n.hasLink = false then
        { s with navStack := rest, results := s.results ++
            [mkRes { line := n.line, column := n.column } "<nav> contains no links" "requireNavLinks"] }
      else { s with navStack := rest }
  else s

/-- JSX closing block for `requireButtonText`. -/
def jctButton (o : Rules) (tag : String) (s : JState) : JState :=
  if o.requireButtonText ∧ tag = "button" then
    match s.buttonStack with
    | [] => s
    | b :: rest =>
      if b.foundText then { s with buttonStack := rest }
      else
        if b.hadEmptyAria then
          { s with buttonStack := rest, results := s.results ++
              [mkRes { line := b.line, column := b.column }
                "<button> aria-label attribute is empty" "requireButtonText"] }
        else
          { s with buttonStack := rest, results := s.results ++
              [mkRes { line := b.line, column := b.column }
                "<button> missing accessible text" "requireButtonText"] }
  else s

/-- JSX closing block for `requireSectionHeading`. -/
def jctSection (o : Rules) (tag : String) (s : JState) : JState :=
  if o.requireSectionHeading ∧ tag = "section" then
    match s.sectionStack with
    | [] => s
    | e :: rest =>
      if e.foundHeading then { s with sectionStack := rest }
      else { s with sectionStack := rest, results := s.results ++
          [mkRes { line := e.line, column := e.column }
            "<section> missing heading (<h1>-<h6>)" "requireSectionHeading"] }
  else s

/-- JSX closing block for `requireTableCaption`. -/
def jctTable (o : Rules) (tag : String) (s : JState) : JState :=
  if o.requireTableCaption ∧ tag = "table" then
    match s.tableStack with
    | [] => s
    | e :: rest =>
      if e.foundCaption then { s with tableStack := rest }
      else { s with tableStack := rest, results := s.results ++
          [mkRes { line := e.line, column := e.column }
            "<table> missing <caption>" "requireTableCaption"] }
  else s

/-- The `exit` visitor of `lintJsx` for a (non-ignored) element. -/
def jExit (o : Rules) (rawName : String) (s : JState) : JState :=
  let tag := lowerStr rawName
  jctTable o tag (jctSection o tag (jctButton o tag (jctNav o tag
    (jctLinkText o tag (jctEmptyInline o tag s)))))

/-- Mark all three text-accumulating stacks, the effect of a visited
`JSXExpressionContainer` (which counts as potential text content). -/
def containerMark (s : JState) : JState :=
  { s with anchorStack := markTxtTop s.anchorStack,
           emptyStack := markEmpTop s.emptyStack,
           buttonStack := markBtnTop s.buttonStack }

/-- Visit the expression containers appearing as attribute values of an
element (Babel traverses the opening element's attributes before the
children; each container fires the `JSXExpressionContainer` visitor,
guarded by its own line's `isIgnored`). -/
def jAttrContainers (ign : Nat → Bool) (attrs : List (String × JAttrVal)) (s : JState) : JState :=
  attrs.foldl
    (fun st p =>
      match p.2 with
      | .dyn l => if ign l then st else containerMark st
      | _ => st)
    s

mutual

/-- Babel traversal of one JSX element: `enter` (skipped when the opening
line is ignored), the attribute expression containers, the children, then
`exit` (skipped under the same condition as `enter`). -/
def jElemRun (o : Rules) (ign : Nat → Bool) (parent : Option String) (s : JState) :
    JElem → JState
  | .mk rawName attrs line col children =>
    let pos : Pos := { line := line - 1, column := col }
    let s1 := if ign line then s else jEnter o parent rawName attrs pos s
    let s2 := jAttrContainers ign attrs s1
    let s3 := jChildList o ign rawName s2 children
    if ign line then s3 else jExit o rawName s3

/-- Traverse the children of an element whose (raw) name is `parentName`. -/
def jChildList (o : Rules) (ign : Nat → Bool) (parentName : String) (s : JState) :
    List JChild → JState
  | [] => s
  | c :: cs => jChildList o ign parentName (jChildRun o ign parentName s c) cs

/-- Traverse one child. -/
def jChildRun (o : Rules) (ign : Nat → Bool) (parentName : String) (s : JState) :
    JChild → JState
  | .celem e => jElemRun o ign (some parentName) s e
  | .ctext txt line =>
    if ign line then s
    else if trimStr txt ≠ "" then containerMark s
    else s
  | .cexpr line inner =>
    let s1 := if ign line then s else containerMark s
    jElemForest o ign s1 inner

/-- Traverse a list of elements whose direct parents are not JSX elements
(top-level roots, or elements nested inside expression containers). -/
def jElemForest (o : Rules) (ign : Nat → Bool) (s : JState) : List JElem → JState
  | [] => s
  | e :: es => jElemForest o ign (jElemRun o ign none s e) es

end

/-- A JSX/TSX source file as consumed by the rule logic: the forest of JSX
elements whose direct parents are not JSX elements, and the comment list. -/
structure JProgram where
  roots : List JElem
  comments : List JComment

/-- `lintJsx` (src/linter.ts): the Babel parse either fails (the `catch`
branch, one synthetic `parseError` result at (0,0)) or yields a program that
is traversed; afterwards the remaining `navStack` entries are drained. -/
def lintJsx (p : Except String JProgram) (o : LinterOptions) : List LintResult :=
  match p with
  | .error e =>
    [{ line := 0, column := 0, message := "Error parsing JSX/TSX: " ++ e,
       rule := some "parseError", filePath := none }]
  | .ok prog =>
    let ign := isIgnoredOf prog.comments
    let s := jElemForest o.rules ign initJState prog.roots
    s.results ++
      (if o.rules.requireNavLinks then
        (s.navStack.filter (fun n => n.hasLink = false)).map
          (fun n => mkRes { line := n.line, column := n.column } "<nav> contains no links"
            "requireNavLinks")
      else [])

/-
The cross-component analyzer (class `ComponentAnalyzer` of
src/component-analyzer.ts) over an explicit registry.  The registry is the
`componentRegistry` map, keyed by absolute file path, in insertion order.
`findReferenceForComp` and the depth-first searches are recursive without a
structural bound in the source; they take a fuel argument here, `none`
meaning the recursion did not come back within the given depth — so
`∀ fuel, _ = none` expresses divergence (in JS: unbounded recursion until
stack overflow).
-/

/-- A recorded JSX usage position (`{line, column}` objects). -/
structure UsagePos where
  line : Nat
  column : Nat
deriving Repr, DecidableEq

/-- Interface `ComponentReference` of src/component-analyzer.ts.  A falsy
path (null, modelled `none`, or the empty string) means unresolved. -/
structure CompRef where
  name : String
  path : Option String
  rawImportPath : Option String
  sourceLocation : UsagePos
  usageLocations : List UsagePos
deriving Repr, DecidableEq

/-- Interface `HeadingInfo` of src/component-analyzer.ts. -/
structure HeadingInfo where
  level : Nat
  line : Nat
  column : Nat
  filePath : String
deriving Repr, DecidableEq

/-- Interface `ComponentDefinition`: `issues` is a `Map` from rule id to
results, modelled as an association list in insertion order. -/
structure CompDef where
  name : String
  filePath : String
  issues : List (String × List LintResult)
  usesComponents : List CompRef
  headings : List HeadingInfo
deriving Repr, DecidableEq

/-- The component registry, keyed by file path, in insertion order. -/
abbrev Registry := List (String × CompDef)

/-- `componentRegistry.has(p)`. -/
def regHas (reg : Registry) (p : String) : Bool :=
  reg.any (fun e => e.1 = p)

/-- `componentRegistry.get(p)`. -/
def regGet (reg : Registry) (p : String) : Option CompDef :=
  (reg.find? (fun e => e.1 = p)).map (fun e => e.2)

/-- `issues.has(rule)`. -/
def issuesHas (c : CompDef) (rule : String) : Bool :=
  c.issues.any (fun e => e.1 = rule)

/-- `issues.get(rule)`. -/
def issuesGet (c : CompDef) (rule : String) : Option (List LintResult) :=
  (c.issues.find? (fun e => e.1 = rule)).map (fun e => e.2)

/-- Stable insertion into a sorted list: the new element goes after every
element it does not strictly precede, preserving the original order of
equals (JS `Array.prototype.sort` is stable). -/
def insertStable (le : α → α → Bool) (x : α) : List α → List α
  | [] => [x]
  | y :: ys => if le y x then y :: insertStable le x ys else x :: y :: ys

/-- Stable sort by the given `≤` test. -/
def sortStable (le : α → α → Bool) (l : List α) : List α :=
  l.foldl (fun acc x => insertStable le x acc) []

/-- Heading comparison of the source's `(a, b) => a.line - b.line || ...`
comparator: ascending by line, then column. -/
def headingLe (a b : HeadingInfo) : Bool :=
  a.line < b.line || (a.line = b.line && a.column ≤ b.column)

/-- First usage location of a reference (`usageLocations[0] || sourceLocation`). -/
def refLoc (r : CompRef) : UsagePos :=
  r.usageLocations.headD r.sourceLocation

/-- Child-reference comparison by first usage position. -/
def refLe (a b : CompRef) : Bool :=
  (refLoc a).line < (refLoc b).line ||
    ((refLoc a).line = (refLoc b).line && (refLoc a).column ≤ (refLoc b).column)

/-- A usage location attributed to a parent file. -/
structure UsageLoc where
  filePath : String
  line : Nat
  column : Nat
deriving Repr, DecidableEq

/-- An entry of the merged heading sequence built by
`collectHeadingsInDocumentOrder`. -/
structure MergedH where
  heading : HeadingInfo
  usageLocation : Option UsageLoc
deriving Repr, DecidableEq

mutual

/-- `collectHeadingsInDocumentOrder` under a recursion-depth fuel: sort the
component's own headings, sort the in-registry child references by first
usage position, and merge. -/
def collectFuel (reg : Registry) : Nat → List String → CompDef → Option (List MergedH)
  | 0, _, _ => none
  | fuel + 1, stack, comp =>
    let localHeadings := (sortStable headingLe comp.headings).map
      (fun h => MergedH.mk h none)
    let childComponents := sortStable refLe (comp.usesComponents.filter
      (fun r =>
        match r.path with
        | some p => regHas reg p
        | none => false))
    mergeFuel reg fuel stack comp.filePath localHeadings childComponents
termination_by fuel stack comp => (fuel, 0)

/-- The merge loop of `collectHeadingsInDocumentOrder`: compare the next
local heading's position against the next child's first usage position; a
strictly earlier local heading is emitted first, otherwise the child is
expanded (if resolvable, registered, and not already on the recursion
path — otherwise it contributes nothing). -/
def mergeFuel (reg : Registry) : Nat → List String → String → List MergedH → List CompRef →
    Option (List MergedH)
  | _, _, _, hs, [] => some hs
  | fuel, stack, parentPath, [], c :: cs' =>
    let childLoc := refLoc c
    match c.path with
    | some p =>
      if regHas reg p ∧ ¬ stack.contains p then
        match regGet reg p with
        | some childComp =>
          match collectFuel reg fuel (p :: stack) childComp with
          | none => none
          | some sub =>
            let usage : UsageLoc :=
              { filePath := parentPath, line := childLoc.line, column := childLoc.column }
            let subMapped := sub.map
              (fun h => { h with usageLocation := some (h.usageLocation.getD usage) })
            (mergeFuel reg fuel stack parentPath [] cs').map (fun rest => subMapped ++ rest)
        | none => mergeFuel reg fuel stack parentPath [] cs'
      else mergeFuel reg fuel stack parentPath [] cs'
    | none => mergeFuel reg fuel stack parentPath [] cs'
  | fuel, stack, parentPath, h :: hs', c :: cs' =>
    let childLoc := refLoc c
    if h.heading.line < childLoc.line ∨
        (h.heading.line = childLoc.line ∧ h.heading.column < childLoc.column) then
      (mergeFuel reg fuel stack parentPath hs' (c :: cs')).map (fun rest => h :: rest)
    else
      match c.path with
      | some p =>
        if regHas reg p ∧ ¬ stack.contains p then
          match regGet reg p with
          | some childComp =>
            match collectFuel reg fuel (p :: stack) childComp with
            | none => none
            | some sub =>
              let usage : UsageLoc :=
                { filePath := parentPath, line := childLoc.line, column := childLoc.column }
              let subMapped := sub.map
                (fun h2 => { h2 with usageLocation := some (h2.usageLocation.getD usage) })
              (mergeFuel reg fuel stack parentPath (h :: hs') cs').map
                (fun rest => subMapped ++ rest)
          | none => mergeFuel reg fuel stack parentPath (h :: hs') cs'
        else mergeFuel reg fuel stack parentPath (h :: hs') cs'
      | none => mergeFuel reg fuel stack parentPath (h :: hs') cs'
termination_by fuel stack parentPath hs cs => (fuel, hs.length + cs.length + 1)

end

/-- File-path attribution of a merged heading with JS `||` semantics: an
empty usage `filePath` falls back to the heading's own file. -/
def mergedFilePath (h : MergedH) : String :=
  match h.usageLocation with
  | some u => if u.filePath ≠ "" then u.filePath else h.heading.filePath
  | none => h.heading.filePath

/-- Line attribution with JS `||` semantics: a usage line of `0` is falsy
and falls back to the heading's own line. -/
def mergedLine (h : MergedH) : Nat :=
  match h.usageLocation with
  | some u => if u.line ≠ 0 then u.line else h.heading.line
  | none => h.heading.line

/-- Column attribution with JS `||` semantics. -/
def mergedColumn (h : MergedH) : Nat :=
  match h.usageLocation with
  | some u => if u.column ≠ 0 then u.column else h.heading.column
  | none => h.heading.column

/-- The level-skip scan of `analyzeHeadingHierarchy` over the merged
sequence.  The pushed object literals carry no `rule` property. -/
def scanSkips (hs : List MergedH) : List LintResult :=
  (hs.foldl
    (fun (acc : List LintResult × Nat) h =>
      let res :=
        if acc.2 > 0 ∧ h.heading.level > acc.2 + 1 then
          acc.1 ++
            [{ line := mergedLine h, column := mergedColumn h,
               message := "Cross-component heading level skipped: <h" ++
                 toString h.heading.level ++ "> after <h" ++ toString acc.2 ++ ">",
               rule := none, filePath := some (mergedFilePath h) }]
        else acc.1
      (res, h.heading.level))
    ([], 0)).1

/-- `analyzeHeadingHierarchy` from a cleared processing stack: the entry
file is put on the stack, the merged sequence collected, and scanned. -/
def analyzeHeadingHierarchyFuel (reg : Registry) (fuel : Nat) (comp : CompDef) :
    Option (List LintResult) :=
  (collectFuel reg fuel [comp.filePath] comp).map scanSkips

/-- `findEntryPoints`: components never referenced (with a truthy path) by
any registered component. -/
def findEntryPoints (reg : Registry) : List CompDef :=
  let all := reg.map (fun e => e.2)
  let imported := all.flatMap (fun c => c.usesComponents.filterMap
    (fun r =>
      match r.path with
      | some p => if p ≠ "" then some p else none
      | none => none))
  all.filter (fun c => ¬ imported.contains c.filePath)

mutual

/-- The `dfs` of `findComponentsWithRule`, threading the shared `visited`
set and the result accumulator. -/
def fcwrGo (reg : Registry) (rule : String) : Nat → List String × List CompDef → CompDef →
    Option (List String × List CompDef)
  | 0, _, _ => none
  | fuel + 1, st, c =>
    if st.1.contains c.filePath then some st
    else
      let visited := st.1 ++ [c.filePath]
      let acc := if issuesHas c rule then st.2 ++ [c] else st.2
      fcwrRefs reg rule fuel (visited, acc) c.usesComponents
termination_by fuel st c => (fuel, 0)

/-- The `forEach` over `usesComponents` inside `dfs`. -/
def fcwrRefs (reg : Registry) (rule : String) : Nat → List String × List CompDef →
    List CompRef → Option (List String × List CompDef)
  | _, st, [] => some st
  | fuel, st, r :: rs =>
    match r.path with
    | some p =>
      if p ≠ "" ∧ regHas reg p then
        match regGet reg p with
        | some c =>
          match fcwrGo reg rule fuel st c with
          | none => none
          | some st' => fcwrRefs reg rule fuel st' rs
        | none => fcwrRefs reg rule fuel st rs
      else fcwrRefs reg rule fuel st rs
    | none => fcwrRefs reg rule fuel st rs
termination_by fuel st rs => (fuel, rs.length + 1)

end

/-- `findComponentsWithRule`, in depth-first discovery order. -/
def findComponentsWithRule (reg : Registry) (rule : String) (fuel : Nat) (root : CompDef) :
    Option (List CompDef) :=
  (fcwrGo reg rule fuel ([], []) root).map (fun st => st.2)

mutual

/-- `findReferenceForComp`: first a direct scan of `usesComponents` for the
target path, then a recursive search through the registry — note: with no
visited set and no stack guard.  The inner `Option` is the JS return value
(`null` or a reference); the outer `none` means the recursion did not
finish within the fuel. -/
def findRefFuel (reg : Registry) : Nat → CompDef → String → Option (Option CompRef)
  | 0, _, _ => none
  | fuel + 1, root, target =>
    match root.usesComponents.find? (fun r => r.path = some target) with
    | some r => some (some r)
    | none => findRefLoop reg fuel root.usesComponents target
termination_by fuel root target => (fuel, 0)

/-- The second loop of `findReferenceForComp`. -/
def findRefLoop (reg : Registry) : Nat → List CompRef → String → Option (Option CompRef)
  | _, [], _ => some none
  | fuel, r :: rs, target =>
    match r.path with
    | some p =>
      if p ≠ "" ∧ regHas reg p then
        match regGet reg p with
        | some c =>
          match findRefFuel reg fuel c target with
          | none => none
          | some (some _) => some (some r)
          | some none => findRefLoop reg fuel rs target
        | none => findRefLoop reg fuel rs target
      else findRefLoop reg fuel rs target
    | none => findRefLoop reg fuel rs target
termination_by fuel rs target => (fuel, rs.length + 1)

end

/-- Placeholder for the JS crash value of `comp.issues.get('singleH1')![0]`
on an empty list (cannot occur for components discovered via the
`singleH1` issue key with a non-empty list). -/
def defaultIssue : LintResult :=
  { line := 0, column := 0, message := "", rule := none, filePath := none }

/-- `findCrossComponentH1Issues`: per entry point, the reachable components
carrying a `singleH1` issue; each one beyond the first yields one result —
attributed to the usage reference when `findReferenceForComp` finds one,
else to the component's own first `singleH1` issue.  The pushed object
literals carry no `rule` property. -/
def findCrossH1Fuel (reg : Registry) (fuel : Nat) : Option (List LintResult) :=
  (findEntryPoints reg).foldlM
    (fun acc entry => do
      let comps ← findComponentsWithRule reg "singleH1" fuel entry
      if comps.length > 1 then
        (comps.drop 1).foldlM
          (fun acc2 comp => do
            let ref? ← findRefFuel reg fuel entry comp.filePath
            match ref? with
            | some ref =>
              let location := ref.usageLocations.headD ref.sourceLocation
              pure (acc2 ++
                [{ line := location.line, column := location.column,
                   message := "Multiple <h1> tags: component '" ++ comp.name ++
                     "' brings an extra <h1>. Use a lower-level heading.",
                   rule := none, filePath := some entry.filePath }])
            | none =>
              let issue := ((issuesGet comp "singleH1").getD []).headD defaultIssue
              pure (acc2 ++
                [{ line := issue.line, column := issue.column,
                   message := "Multiple <h1> across components - consider using lower-level headings.",
                   rule := none, filePath := some comp.filePath }]))
          acc
      else pure acc)
    []

/-- `findCrossComponentHeadingOrderIssues`: the processing stack is cleared
per entry point, then `analyzeHeadingHierarchy` runs. -/
def findCrossOrderFuel (reg : Registry) (fuel : Nat) : Option (List LintResult) :=
  (findEntryPoints reg).foldlM
    (fun acc entry => do
      let rs ← analyzeHeadingHierarchyFuel reg fuel entry
      pure (acc ++ rs))
    []

/-- `analyzeComponentTree`: nothing when `crossComponentAnalysis` is off;
otherwise the `singleH1` pass followed by the heading-order pass. -/
def analyzeComponentTree (reg : Registry) (o : LinterOptions) (fuel : Nat) :
    Option (List LintResult) :=
  if o.crossComponentAnalysis = false then some []
  else do
    let a ← if o.rules.singleH1 then findCrossH1Fuel reg fuel else pure []
    let b ← if o.rules.enforceHeadingOrder then findCrossOrderFuel reg fuel else pure []
    pure (a ++ b)

/-
Proof development.  The traversal lemmas below track, through every step of
the `lintHtmlString` element handling, the projections of the state needed
by the claims: the suppression flags, the tag stack, the `h1` counter, the
registered label targets, and the per-rule result counts for `singleH1`,
`enforceListNesting` and `requireLabelForFormControls`.
-/

/-- Effect of a state transformer on the tracked projections: flags, tag
stack and the listed deltas. -/
def StepEff (s t : HState) (dH1 : Nat) (dLbl : List String) (d1 d2 d3 : Nat) : Prop :=
  t.ignoreNext = s.ignoreNext ∧ t.ignoreBlock = s.ignoreBlock ∧ t.tagStack = s.tagStack ∧
  t.h1Count = s.h1Count + dH1 ∧ t.labels = s.labels ++ dLbl ∧
  countRule "singleH1" t.results = countRule "singleH1" s.results + d1 ∧
  countRule "enforceListNesting" t.results = countRule "enforceListNesting" s.results + d2 ∧
  countRule "requireLabelForFormControls" t.results =
    countRule "requireLabelForFormControls" s.results + d3

theorem countRule_append (r : String) (l1 l2 : List LintResult) :
    countRule r (l1 ++ l2) = countRule r l1 + countRule r l2 := by
  simp [countRule, List.filter_append]

theorem countRule_mkRes (r r' : String) (p : Pos) (m : String) :
    countRule r [mkRes p m r'] = if r' = r then 1 else 0 := by
  simp [countRule, mkRes, List.filter]
  split <;> simp_all

theorem StepEff.rfl (s : HState) : StepEff s s 0 [] 0 0 0 := by simp [StepEff]

theorem StepEff.comp {s t u : HState} {a1 a2 b1 b2 c1 c2 d1 d2 : Nat} {l1 l2 : List String}
    (h1 : StepEff s t a1 l1 b1 c1 d1) (h2 : StepEff t u a2 l2 b2 c2 d2) :
    StepEff s u (a1 + a2) (l1 ++ l2) (b1 + b2) (c1 + c2) (d1 + d2) := by
  obtain ⟨e1, e2, e3, e4, e5, e6, e7, e8⟩ := h1
  obtain ⟨f1, f2, f3, f4, f5, f6, f7, f8⟩ := h2
  refine ⟨?_, ?_, ?_, ?_, ?_, ?_, ?_, ?_⟩ <;> simp [*] <;> omega

/-- A step that leaves every tracked projection unchanged. -/
def Neutral (f : HState → HState) : Prop := ∀ s, StepEff s (f s) 0 [] 0 0 0

theorem StepEff.stepN {s t : HState} {a b c d : Nat} {l : List String}
    (h : StepEff s t a l b c d) {f : HState → HState} (hf : Neutral f) :
    StepEff s (f t) a l b c d := by
  simpa using h.comp (hf t)

theorem StepEff.ignoreNextEq {s t : HState} {a b c d : Nat} {l : List String}
    (h : StepEff s t a l b c d) : t.ignoreNext = s.ignoreNext := h.1

theorem StepEff.ignoreBlockEq {s t : HState} {a b c d : Nat} {l : List String}
    (h : StepEff s t a l b c d) : t.ignoreBlock = s.ignoreBlock := h.2.1

theorem StepEff.tagStackEq {s t : HState} {a b c d : Nat} {l : List String}
    (h : StepEff s t a l b c d) : t.tagStack = s.tagStack := h.2.2.1

theorem StepEff.h1CountEq {s t : HState} {a b c d : Nat} {l : List String}
    (h : StepEff s t a l b c d) : t.h1Count = s.h1Count + a := h.2.2.2.1

theorem StepEff.labelsEq {s t : HState} {a b c d : Nat} {l : List String}
    (h : StepEff s t a l b c d) : t.labels = s.labels ++ l := h.2.2.2.2.1

theorem StepEff.cnt1Eq {s t : HState} {a b c d : Nat} {l : List String}
    (h : StepEff s t a l b c d) :
    countRule "singleH1" t.results = countRule "singleH1" s.results + b := h.2.2.2.2.2.1

theorem StepEff.cnt2Eq {s t : HState} {a b c d : Nat} {l : List String}
    (h : StepEff s t a l b c d) :
    countRule "enforceListNesting" t.results = countRule "enforceListNesting" s.results + c :=
  h.2.2.2.2.2.2.1

theorem StepEff.cnt3Eq {s t : HState} {a b c d : Nat} {l : List String}
    (h : StepEff s t a l b c d) :
    countRule "requireLabelForFormControls" t.results =
      countRule "requireLabelForFormControls" s.results + d := h.2.2.2.2.2.2.2

theorem nNav (tag : String) (pos : Pos) : Neutral (stNav tag pos) := by
  intro s
  unfold stNav
  repeat' split
  all_goals simp [StepEff, countRule_append, countRule_mkRes]

theorem nNavLink (tag : String) : Neutral (stNavLink tag) := by
  intro s
  unfold stNavLink
  repeat' split
  all_goals simp [StepEff, countRule_append, countRule_mkRes]

theorem nUniqueIds (o : Rules) (attrs : List (String × String)) (pos : Pos) :
    Neutral (stUniqueIds o attrs pos) := by
  intro s
  unfold stUniqueIds
  repeat' split
  all_goals simp [StepEff, countRule_append, countRule_mkRes]

theorem nHtmlLang (o : Rules) (tag : String) (attrs : List (String × String)) (pos : Pos) :
    Neutral (stHtmlLang o tag attrs pos) := by
  intro s
  unfold stHtmlLang
  repeat' split
  all_goals simp [StepEff, countRule_append, countRule_mkRes]

theorem nIframe (o : Rules) (tag : String) (attrs : List (String × String)) (pos : Pos) :
    Neutral (stIframe o tag attrs pos) := by
  intro s
  unfold stIframe
  repeat' split
  all_goals simp [StepEff, countRule_append, countRule_mkRes]

theorem nImageInput (o : Rules) (tag : String) (attrs : List (String × String)) (pos : Pos) :
    Neutral (stImageInput o tag attrs pos) := by
  intro s
  unfold stImageInput
  repeat' split
  all_goals simp [StepEff, countRule_append, countRule_mkRes]

theorem nHeadingOrder (o : Rules) (tag : String) (pos : Pos) :
    Neutral (stHeadingOrder o tag pos) := by
  intro s
  unfold stHeadingOrder
  repeat' split
  all_goals simp [StepEff, countRule_append, countRule_mkRes]

theorem nAltText (o : Rules) (tag : String) (attrs : List (String × String)) (pos : Pos) :
    Neutral (stAltText o tag attrs pos) := by
  intro s
  unfold stAltText
  repeat' split
  all_goals simp [StepEff, countRule_append, countRule_mkRes]

theorem nAnchor (o : Rules) (tag : String) (attrs : List (String × String)) (pos : Pos) :
    Neutral (stAnchor o tag attrs pos) := by
  intro s
  unfold stAnchor
  repeat' split
  all_goals simp [StepEff, countRule_append, countRule_mkRes]

theorem nButton (o : Rules) (tag : String) (attrs : List (String × String)) (pos : Pos) :
    Neutral (stButton o tag attrs pos) := by
  intro s
  unfold stButton
  repeat' split
  all_goals simp [StepEff, countRule_append, countRule_mkRes]

theorem nTable (tag : String) (pos : Pos) : Neutral (stTable tag pos) := by
  intro s
  unfold stTable
  repeat' split
  all_goals simp [StepEff, countRule_append, countRule_mkRes]

theorem nCaption (tag : String) : Neutral (stCaption tag) := by
  intro s
  unfold stCaption
  repeat' split
  all_goals simp [StepEff, countRule_append, countRule_mkRes]

theorem nEmptyInline (o : Rules) (tag : String) (pos : Pos) :
    Neutral (stEmptyInline o tag pos) := by
  intro s
  unfold stEmptyInline
  repeat' split
  all_goals simp [StepEff, countRule_append, countRule_mkRes]

theorem nSection (o : Rules) (tag : String) (pos : Pos) : Neutral (stSection o tag pos) := by
  intro s
  unfold stSection
  repeat' split
  all_goals simp [StepEff, countRule_append, countRule_mkRes]

theorem nCtEmptyInline (o : Rules) (tag : String) : Neutral (ctEmptyInline o tag) := by
  intro s
  unfold ctEmptyInline
  repeat' split
  all_goals simp [StepEff, countRule_append, countRule_mkRes]

theorem nCtLinkText (o : Rules) (tag : String) : Neutral (ctLinkText o tag) := by
  intro s
  unfold ctLinkText
  repeat' split
  all_goals simp [StepEff, countRule_append, countRule_mkRes]

theorem nCtNav (o : Rules) (tag : String) : Neutral (ctNav o tag) := by
  intro s
  unfold ctNav
  repeat' split
  all_goals simp [StepEff, countRule_append, countRule_mkRes]

theorem nCtButton (o : Rules) (tag : String) : Neutral (ctButton o tag) := by
  intro s
  unfold ctButton
  repeat' split
  all_goals simp [StepEff, countRule_append, countRule_mkRes]

theorem nCtSection (o : Rules) (tag : String) : Neutral (ctSection o tag) := by
  intro s
  unfold ctSection
  repeat' split
  all_goals simp [StepEff, countRule_append, countRule_mkRes]

theorem nCtTable (o : Rules) (tag : String) : Neutral (ctTable o tag) := by
  intro s
  unfold ctTable
  repeat' split
  all_goals simp [StepEff, countRule_append, countRule_mkRes]

theorem nText (txt : String) : Neutral (stText txt) := by
  intro s
  unfold stText
  repeat' split
  all_goals simp [StepEff]

theorem stLabel_eff (tag : String) (attrs : List (String × String)) (s : HState) :
    StepEff s (stLabel tag attrs s) 0 (labelsOfAttrs tag attrs) 0 0 0 := by
  unfold stLabel labelsOfAttrs
  repeat' split
  all_goals simp [StepEff]

theorem stSingleH1_eff (o : Rules) (tag : String) (pos : Pos) (s : HState) :
    StepEff s (stSingleH1 o tag pos s)
      (if o.singleH1 ∧ tag = "h1" then 1 else 0) []
      (if o.singleH1 ∧ tag = "h1" ∧ 1 ≤ s.h1Count then 1 else 0) 0 0 := by
  by_cases hc : o.singleH1 = true ∧ tag = "h1"
  · by_cases hn : 1 ≤ s.h1Count
    · rw [if_pos hc, if_pos ⟨hc.1, hc.2, hn⟩]
      unfold stSingleH1
      rw [if_pos hc]
      have hgt : s.h1Count + 1 > 1 := by omega
      simp [hgt, StepEff, countRule_append, countRule_mkRes]
    · rw [if_pos hc, if_neg (fun h => hn h.2.2)]
      unfold stSingleH1
      rw [if_pos hc]
      have hgt : ¬(s.h1Count + 1 > 1) := by omega
      simp [hgt, StepEff]
  · rw [if_neg hc, if_neg (fun h => hc ⟨h.1, h.2.1⟩)]
    unfold stSingleH1
    rw [if_neg hc]
    exact StepEff.rfl s

theorem stListNesting_eff (o : Rules) (tag : String) (pos : Pos) (s : HState) :
    StepEff s (stListNesting o tag pos s) 0 [] 0
      (if o.enforceListNesting ∧ tag = "li" ∧ parentOkB s.tagStack.tail.head? = false
        then 1 else 0) 0 := by
  by_cases hc : o.enforceListNesting = true ∧ tag = "li"
  · unfold stListNesting
    rw [if_pos hc]
    by_cases hp : parentOkB s.tagStack.tail.head? = true
    · rw [if_pos hp, if_neg]
      · exact StepEff.rfl s
      · intro hcon
        rw [hp] at hcon
        simp at hcon
    · have hp' : parentOkB s.tagStack.tail.head? = false := by
        revert hp
        cases parentOkB s.tagStack.tail.head? <;> simp
      rw [if_neg hp, if_pos ⟨hc.1, hc.2, hp'⟩]
      simp [StepEff, countRule_append, countRule_mkRes]
  · unfold stListNesting
    rw [if_neg hc, if_neg (fun h => hc ⟨h.1, h.2.1⟩)]
    exact StepEff.rfl s

theorem stLabelFor_eff (o : Rules) (tag : String) (attrs : List (String × String)) (pos : Pos)
    (s : HState) :
    StepEff s (stLabelFor o tag attrs pos s) 0 [] 0 0
      (if o.requireLabelForFormControls ∧ tag ∈ ["input", "select", "textarea"] ∧
          ariaMissingB attrs = true ∧ labelViolB attrs s.labels = true then 1 else 0) := by
  by_cases hc : o.requireLabelForFormControls = true ∧ tag ∈ ["input", "select", "textarea"]
  · unfold stLabelFor
    rw [if_pos hc]
    by_cases hv : ariaMissingB attrs = true ∧ labelViolB attrs s.labels = true
    · rw [if_pos hv, if_pos ⟨hc.1, hc.2, hv.1, hv.2⟩]
      simp [StepEff, countRule_append, countRule_mkRes]
    · rw [if_neg hv, if_neg (fun h => hv ⟨h.2.2.1, h.2.2.2⟩)]
      exact StepEff.rfl s
  · unfold stLabelFor
    rw [if_neg hc, if_neg (fun h => hc ⟨h.1, h.2.1⟩)]
    exact StepEff.rfl s

theorem startsWith_next_disable (t : String)
    (h : startsWithStr t "zemdomu-disable-next" = true) :
    startsWithStr t "zemdomu-disable" = true := by
  unfold startsWithStr at h ⊢
  simp only [decide_eq_true_eq] at h ⊢
  have hlen2 : ("zemdomu-disable-next".data).length = 20 := by decide
  have hlen : ("zemdomu-disable".data).length = 15 := by decide
  rw [hlen2] at h
  rw [hlen]
  have hsplit : t.data.take 15 = (t.data.take 20).take 15 := by
    rw [List.take_take]
    norm_num
  rw [hsplit, h]
  decide

theorem stComment_eff (txt : String) (s : HState)
    (h : startsWithStr (trimStr txt) "zemdomu-disable" = false)
    (hb : s.ignoreBlock = false) :
    StepEff s (stComment txt s) 0 [] 0 0 0 := by
  have h1 : startsWithStr (trimStr txt) "zemdomu-disable-next" = false := by
    by_cases hx : startsWithStr (trimStr txt) "zemdomu-disable-next" = true
    · rw [startsWith_next_disable _ hx] at h
      simp at h
    · simpa using hx
  unfold stComment
  simp only [h1, h, Bool.false_eq_true, if_false]
  split
  · simp [StepEff, hb]
  · exact StepEff.rfl s

theorem nHClose (o : Rules) (tag : String) : Neutral (hClose o tag) := by
  intro s
  unfold hClose
  exact ((((((StepEff.rfl s).stepN (nCtEmptyInline o tag)).stepN (nCtLinkText o tag)).stepN
    (nCtNav o tag)).stepN (nCtButton o tag)).stepN (nCtSection o tag)).stepN (nCtTable o tag)

theorem hOpen_eff (o : Rules) (tag : String) (attrs : List (String × String)) (pos : Pos)
    (s : HState) :
    StepEff s (hOpen o tag attrs pos s)
      (if o.singleH1 ∧ tag = "h1" then 1 else 0)
      (labelsOfAttrs tag attrs)
      (if o.singleH1 ∧ tag = "h1" ∧ 1 ≤ s.h1Count then 1 else 0)
      (if o.enforceListNesting ∧ tag = "li" ∧ parentOkB s.tagStack.tail.head? = false
        then 1 else 0)
      (if o.requireLabelForFormControls ∧ tag ∈ ["input", "select", "textarea"] ∧
          ariaMissingB attrs = true ∧
          labelViolB attrs (s.labels ++ labelsOfAttrs tag attrs) = true then 1 else 0) := by
  unfold hOpen
  have c1 := stLabel_eff tag attrs s
  have c2 := c1.stepN (nNav tag pos)
  have c3 := c2.stepN (nNavLink tag)
  have c4 := c3.stepN (nUniqueIds o attrs pos)
  have c5 := c4.stepN (nHtmlLang o tag attrs pos)
  have c6 := c5.stepN (nIframe o tag attrs pos)
  have c7 := c6.stepN (nImageInput o tag attrs pos)
  have hl := c7.labelsEq
  have c8 := c7.comp (stLabelFor_eff o tag attrs pos _)
  rw [hl] at c8
  have hh := c8.h1CountEq
  have c9 := c8.comp (stSingleH1_eff o tag pos _)
  rw [hh] at c9
  have c10 := c9.stepN (nHeadingOrder o tag pos)
  have c11 := c10.stepN (nAltText o tag attrs pos)
  have ht := c11.tagStackEq
  have c12 := c11.comp (stListNesting_eff o tag pos _)
  rw [ht] at c12
  have c13 := c12.stepN (nAnchor o tag attrs pos)
  have c14 := c13.stepN (nButton o tag attrs pos)
  have c15 := c14.stepN (nTable tag pos)
  have c16 := c15.stepN (nCaption tag)
  have c17 := c16.stepN (nEmptyInline o tag pos)
  have c18 := c17.stepN (nSection o tag pos)
  simpa using c18

theorem firedH1_zero (c : Nat) : firedH1 c 0 = 0 := by unfold firedH1; omega

theorem firedH1_split (c k1 k2 : Nat) :
    firedH1 c (k1 + k2) = firedH1 c k1 + firedH1 (c + k1) k2 := by
  unfold firedH1; omega

theorem firedH1_one (c : Nat) : firedH1 c 1 = if 1 ≤ c then 1 else 0 := by
  unfold firedH1; split <;> omega

theorem parentOk_map (p : Option TagEntry) :
    parentOkB p = parentTagOkB (p.map TagEntry.tag) := by
  cases p <;> simp [parentOkB, parentTagOkB]

/-- Bundled conclusion of the traversal master lemma. -/
def MasterOut (s t : HState) (nH1 : Nat) (lbl : List String) (li lf : Nat) : Prop :=
  t.ignoreNext = false ∧ t.ignoreBlock = false ∧ t.tagStack = s.tagStack ∧
  t.h1Count = s.h1Count + nH1 ∧ t.labels = s.labels ++ lbl ∧
  countRule "singleH1" t.results = countRule "singleH1" s.results + firedH1 s.h1Count nH1 ∧
  countRule "enforceListNesting" t.results = countRule "enforceListNesting" s.results + li ∧
  countRule "requireLabelForFormControls" t.results =
    countRule "requireLabelForFormControls" s.results + lf

mutual

theorem hNodeMaster (gp : Nat → Pos) (n : Node) (s : HState)
    (hnd : noDisableN n = true) (hin : s.ignoreNext = false) (hib : s.ignoreBlock = false) :
    MasterOut s (hNode defaultOptions.rules gp s n) (cntH1 n) (lblsN n)
      (liSpecN (s.tagStack.head?.map TagEntry.tag) n) (lfSpecN s.labels n) := by
  cases n with
  | comment txt idx =>
    have hd : startsWithStr (trimStr txt) "zemdomu-disable" = false := by
      simpa [noDisableN] using hnd
    have hc := stComment_eff txt s hd hib
    obtain ⟨e1, e2, e3, e4, e5, e6, e7, e8⟩ := hc
    simp only [hNode, cntH1, lblsN, liSpecN, lfSpecN, MasterOut]
    refine ⟨by rw [e1, hin], by rw [e2, hib], e3, by omega, by simpa using e5,
      by rw [e6, firedH1_zero], by omega, by omega⟩
  | text txt idx =>
    have hc := nText txt s
    obtain ⟨e1, e2, e3, e4, e5, e6, e7, e8⟩ := hc
    simp only [hNode, cntH1, lblsN, liSpecN, lfSpecN, MasterOut]
    refine ⟨by rw [e1, hin], by rw [e2, hib], e3, by omega, by simpa using e5,
      by rw [e6, firedH1_zero], by omega, by omega⟩
  | element tagName attrs children idx sc =>
    have hnd' : noDisableL children = true := by simpa [noDisableN] using hnd
    simp only [hNode]
    generalize hS0 : pushTag (lowerStr tagName) (gp idx) s = s0
    have hpin : s0.ignoreNext = false := by rw [← hS0]; simp [pushTag, hin]
    have hpib : s0.ignoreBlock = false := by rw [← hS0]; simp [pushTag, hib]
    have s0tag : s0.tagStack =
        { tag := lowerStr tagName, line := (gp idx).line, column := (gp idx).column } ::
          s.tagStack := by rw [← hS0]; simp [pushTag]
    have s0h1 : s0.h1Count = s.h1Count := by rw [← hS0]; simp [pushTag]
    have s0lbl : s0.labels = s.labels := by rw [← hS0]; simp [pushTag]
    have s0res : s0.results = s.results := by rw [← hS0]; simp [pushTag]
    obtain ⟨o1, o2, o3, o4, o5, o6, o7, o8⟩ :=
      hOpen_eff defaultOptions.rules (lowerStr tagName) attrs (gp idx) s0
    have hoin : (hOpen defaultOptions.rules (lowerStr tagName) attrs (gp idx) s0).ignoreNext =
        false := by rw [o1, hpin]
    have hoib : (hOpen defaultOptions.rules (lowerStr tagName) attrs (gp idx) s0).ignoreBlock =
        false := by rw [o2, hpib]
    obtain ⟨i1, i2, i3, i4, i5, i6, i7, i8⟩ := hListMaster gp children
      (hOpen defaultOptions.rules (lowerStr tagName) attrs (gp idx) s0) hnd' hoin hoib
    obtain ⟨k1, k2, k3, k4, k5, k6, k7, k8⟩ := nHClose defaultOptions.rules (lowerStr tagName)
      (hList defaultOptions.rules gp
        (hOpen defaultOptions.rules (lowerStr tagName) attrs (gp idx) s0) children)
    -- reduce the two suppression guards and the post-children guard
    rw [hpin]
    simp only [Bool.false_eq_true, if_false]
    rw [hpib]
    simp only [Bool.false_eq_true, if_false]
    rw [i2]
    simp only [Bool.false_eq_true, if_false]
    -- normalize the default-options switches and the pushed-state projections
    have hf1 : (defaultOptions.rules.singleH1 = true) = True := by simp [defaultOptions]
    have hf2 : (defaultOptions.rules.enforceListNesting = true) = True := by
      simp [defaultOptions]
    have hf3 : (defaultOptions.rules.requireLabelForFormControls = true) = True := by
      simp [defaultOptions]
    simp only [hf1, hf2, hf3, true_and] at o4 o6 o7 o8
    rw [s0h1] at o4 o6
    rw [s0lbl] at o5 o8
    rw [s0res] at o6 o7 o8
    rw [s0tag] at o3 o7
    simp only [List.tail_cons] at o7
    -- push the open-phase facts through the children and close phases
    rw [o3] at i3 i7
    rw [o4] at i4 i6
    rw [o5] at i5 i8
    simp only [List.head?_cons, Option.map_some', Option.map_some] at i7
    unfold MasterOut
    simp only [popTag]
    refine ⟨by rw [k1, i1], by rw [k2, i2], ?_, ?_, ?_, ?_, ?_, ?_⟩
    · rw [k3, i3]
      simp
    · simp only [cntH1]
      rw [k4, i4]
      split <;> omega
    · simp only [lblsN]
      rw [k5, i5]
      simp
    · simp only [cntH1]
      rw [k6, i6, o6]
      by_cases hh : lowerStr tagName = "h1"
      · simp only [hh, eq_self_iff_true, if_true, true_and]
        rw [firedH1_split s.h1Count 1 (cntH1L children), firedH1_one]
        split <;> omega
      · simp only [hh, false_and, if_false, Nat.add_zero, Nat.zero_add]
    · simp only [liSpecN]
      simp only [parentOk_map] at o7
      rw [k7, i7, o7]
      omega
    · simp only [lfSpecN]
      rw [k8, i8, o8]
      omega

theorem hListMaster (gp : Nat → Pos) (ns : List Node) (s : HState)
    (hnd : noDisableL ns = true) (hin : s.ignoreNext = false) (hib : s.ignoreBlock = false) :
    MasterOut s (hList defaultOptions.rules gp s ns) (cntH1L ns) (lblsL ns)
      (liSpecL (s.tagStack.head?.map TagEntry.tag) ns) (lfSpecL s.labels ns) := by
  cases ns with
  | nil =>
    unfold MasterOut
    refine ⟨hin, hib, rfl, ?_, ?_, ?_, ?_, ?_⟩ <;>
      simp [hList, cntH1L, lblsL, liSpecL, lfSpecL, firedH1_zero]
  | cons n rest =>
    have hnd1 : noDisableN n = true := by
      have := hnd
      simp [noDisableL, Bool.and_eq_true] at this
      exact this.1
    have hnd2 : noDisableL rest = true := by
      have := hnd
      simp [noDisableL, Bool.and_eq_true] at this
      exact this.2
    obtain ⟨a1, a2, a3, a4, a5, a6, a7, a8⟩ := hNodeMaster gp n s hnd1 hin hib
    obtain ⟨b1, b2, b3, b4, b5, b6, b7, b8⟩ :=
      hListMaster gp rest (hNode defaultOptions.rules gp s n) hnd2 a1 a2
    simp only [hList, cntH1L, lblsL, liSpecL, lfSpecL, MasterOut]
    refine ⟨b1, b2, by rw [b3, a3], by rw [b4, a4]; omega, by rw [b5, a5]; simp,
      ?_, ?_, ?_⟩
    · rw [b6, a6, a4, firedH1_split]
      omega
    · rw [b7, a7, a3]
      omega
    · rw [b8, a8, a5]
      omega
end

theorem firedH1_init (k : Nat) : firedH1 0 k = k - 1 := by unfold firedH1; omega

theorem countRule_drainNav (o : Rules) (s : HState) (r : String)
    (h : ("requireNavLinks" = r) = False) : countRule r (drainNav o s) = 0 := by
  unfold drainNav countRule
  split
  · simp [List.filter_map, mkRes, h]
  · simp

def gp0 : Nat → Pos := fun _ => { line := 0, column := 0 }

theorem htmlCount_c6 (gp : Nat → Pos) (roots : List Node) (h : noDisableL roots = true) :
    countRule "singleH1" (lintHtmlTree defaultOptions gp roots) = cntH1L roots - 1 := by
  unfold lintHtmlTree
  rw [countRule_append, countRule_drainNav _ _ _ (by decide)]
  obtain ⟨-, -, -, -, -, c6, -, -⟩ :=
    hListMaster gp roots initHState h (by simp [initHState]) (by simp [initHState])
  rw [c6]
  simp [initHState, countRule, firedH1_init]

theorem htmlCount_c7 (gp : Nat → Pos) (roots : List Node) (h : noDisableL roots = true) :
    countRule "enforceListNesting" (lintHtmlTree defaultOptions gp roots) =
      liSpecL none roots := by
  unfold lintHtmlTree
  rw [countRule_append, countRule_drainNav _ _ _ (by decide)]
  obtain ⟨-, -, -, -, -, -, c7, -⟩ :=
    hListMaster gp roots initHState h (by simp [initHState]) (by simp [initHState])
  rw [c7]
  simp [initHState, countRule]

theorem htmlCount_c9 (gp : Nat → Pos) (roots : List Node) (h : noDisableL roots = true) :
    countRule "requireLabelForFormControls" (lintHtmlTree defaultOptions gp roots) =
      lfSpecL [] roots := by
  unfold lintHtmlTree
  rw [countRule_append, countRule_drainNav _ _ _ (by decide)]
  obtain ⟨-, -, -, -, -, -, -, c9⟩ :=
    hListMaster gp roots initHState h (by simp [initHState]) (by simp [initHState])
  rw [c9]
  simp [initHState, countRule]

-- concrete docs
def h1Elem : Node := .element "h1" [] [] 0 false
def docC6 : List Node := [.comment " zemdomu-disable-next " 0, h1Elem, h1Elem]
def doc3 : List Node := [h1Elem, h1Elem, h1Elem]


def docC9 : List Node :=
  [.element "input" [("id", "x")] [] 0 false, .element "label" [("for", "x")] [] 1 false]

theorem tokenizeStep_lt : tokenizeStep "<".data 0 = some (Token.textTok "" 0, 0) := by rfl

theorem tokensFuel_lt (fuel : Nat) : tokensFuel "<".data fuel 0 = none := by
  induction fuel with
  | zero => rfl
  | succ n ih =>
    show (tokensFuel "<".data n 0).map (fun l => Token.textTok "" 0 :: l) = none
    rw [ih]
    rfl

theorem lintHtmlStringFuel_lt (o : LinterOptions) (fuel : Nat) :
    lintHtmlStringFuel "<" o fuel = none := by
  unfold lintHtmlStringFuel parseHtmlFuel
  rw [tokensFuel_lt]
  rfl

theorem lintJsx_error (e : String) (o : LinterOptions) :
    lintJsx (.error e) o =
      [{ line := 0, column := 0, message := "Error parsing JSX/TSX: " ++ e,
         rule := some "parseError", filePath := none }] := rfl

/- JSX specification functions -/

/-- Does an element parent (by raw name) trigger the JSX `enforceListNesting`
check for an `<li>` child?  Only an element parent that is not `ul`/`ol`. -/
def jParentTrig : Option String → Bool
  | some p => !(lowerStr p = "ul" || lowerStr p = "ol")
  | none => false

mutual

def jLiSpecE (parent : Option String) : JElem → Nat
  | .mk name _ _ _ cs =>
    (if lowerStr name = "li" ∧ jParentTrig parent = true then 1 else 0) + jLiSpecCs name cs

def jLiSpecCs (parentName : String) : List JChild → Nat
  | [] => 0
  | c :: cs => jLiSpecC parentName c + jLiSpecCs parentName cs

def jLiSpecC (parentName : String) : JChild → Nat
  | .celem e => jLiSpecE (some parentName) e
  | .ctext _ _ => 0
  | .cexpr _ inner => jLiSpecF inner

def jLiSpecF : List JElem → Nat
  | [] => 0
  | e :: es => jLiSpecE none e + jLiSpecF es

end

mutual

def jLblE : JElem → List String
  | .mk _ attrs _ _ cs => forLits attrs ++ jLblCs cs

def jLblCs : List JChild → List String
  | [] => []
  | c :: cs => jLblC c ++ jLblCs cs

def jLblC : JChild → List String
  | .celem e => jLblE e
  | .ctext _ _ => []
  | .cexpr _ inner => jLblF inner

def jLblF : List JElem → List String
  | [] => []
  | e :: es => jLblE e ++ jLblF es

end

mutual

def jLfE (L : List String) : JElem → Nat
  | .mk name attrs _ _ cs =>
    let L1 := L ++ forLits attrs
    (if lowerStr name ∈ ["input", "select", "textarea"] ∧ jAriaMissingB attrs = true ∧
        jLabelViolB attrs L1 = true then 1 else 0) + jLfCs L1 cs

def jLfCs (L : List String) : List JChild → Nat
  | [] => 0
  | c :: cs => jLfC L c + jLfCs (L ++ jLblC c) cs

def jLfC (L : List String) : JChild → Nat
  | .celem e => jLfE L e
  | .ctext _ _ => 0
  | .cexpr _ inner => jLfF L inner

def jLfF (L : List String) : List JElem → Nat
  | [] => 0
  | e :: es => jLfE L e + jLfF (L ++ jLblE e) es

end

/-- Tracked projections for the JSX traversal. -/
def JEff (s t : JState) (dLbl : List String) (dLi dLf : Nat) : Prop :=
  t.labels = s.labels ++ dLbl ∧
  countRule "enforceListNesting" t.results = countRule "enforceListNesting" s.results + dLi ∧
  countRule "requireLabelForFormControls" t.results =
    countRule "requireLabelForFormControls" s.results + dLf

theorem JEff.jrfl (s : JState) : JEff s s [] 0 0 := by simp [JEff]

theorem JEff.jcomp {s t u : JState} {l1 l2 : List String} {a1 a2 b1 b2 : Nat}
    (h1 : JEff s t l1 a1 b1) (h2 : JEff t u l2 a2 b2) :
    JEff s u (l1 ++ l2) (a1 + a2) (b1 + b2) := by
  obtain ⟨e1, e2, e3⟩ := h1
  obtain ⟨f1, f2, f3⟩ := h2
  refine ⟨?_, ?_, ?_⟩ <;> simp [*] <;> omega

theorem JEff.jlabelsEq {s t : JState} {l : List String} {a b : Nat}
    (h : JEff s t l a b) : t.labels = s.labels ++ l := h.1

def JNeutral (f : JState → JState) : Prop := ∀ s, JEff s (f s) [] 0 0

theorem JEff.jstepN {s t : JState} {l : List String} {a b : Nat}
    (h : JEff s t l a b) {f : JState → JState} (hf : JNeutral f) : JEff s (f t) l a b := by
  simpa using h.jcomp (hf t)

theorem jnNav (tag : String) (pos : Pos) : JNeutral (jsNav tag pos) := by
  intro s
  unfold jsNav
  try dsimp only
  repeat' split
  all_goals simp [JEff, countRule_append, countRule_mkRes]

theorem jnNavLink (tag : String) : JNeutral (jsNavLink tag) := by
  intro s
  unfold jsNavLink
  try dsimp only
  repeat' split
  all_goals simp [JEff, countRule_append, countRule_mkRes]

theorem jnUniqueIds (o : Rules) (attrs : List (String × JAttrVal)) (pos : Pos) :
    JNeutral (jsUniqueIds o attrs pos) := by
  intro s
  unfold jsUniqueIds
  try dsimp only
  repeat' split
  all_goals simp [JEff, countRule_append, countRule_mkRes]

theorem jnHtmlLang (o : Rules) (tag : String) (attrs : List (String × JAttrVal)) (pos : Pos) :
    JNeutral (jsHtmlLang o tag attrs pos) := by
  intro s
  unfold jsHtmlLang
  try dsimp only
  repeat' split
  all_goals simp [JEff, countRule_append, countRule_mkRes]

theorem jnIframe (o : Rules) (tag : String) (attrs : List (String × JAttrVal)) (pos : Pos) :
    JNeutral (jsIframe o tag attrs pos) := by
  intro s
  unfold jsIframe
  try dsimp only
  repeat' split
  all_goals simp [JEff, countRule_append, countRule_mkRes]

theorem jnImageInput (o : Rules) (tag : String) (attrs : List (String × JAttrVal)) (pos : Pos) :
    JNeutral (jsImageInput o tag attrs pos) := by
  intro s
  unfold jsImageInput
  try dsimp only
  repeat' split
  all_goals simp [JEff, countRule_append, countRule_mkRes]

theorem jnSingleH1 (o : Rules) (tag : String) (pos : Pos) : JNeutral (jsSingleH1 o tag pos) := by
  intro s
  unfold jsSingleH1
  try dsimp only
  repeat' split
  all_goals simp [JEff, countRule_append, countRule_mkRes]

theorem jnHeadingOrder (o : Rules) (tag : String) (pos : Pos) :
    JNeutral (jsHeadingOrder o tag pos) := by
  intro s
  unfold jsHeadingOrder
  try dsimp only
  repeat' split
  all_goals simp [JEff, countRule_append, countRule_mkRes]

theorem jnAltText (o : Rules) (tag : String) (attrs : List (String × JAttrVal)) (pos : Pos) :
    JNeutral (jsAltText o tag attrs pos) := by
  intro s
  unfold jsAltText
  try dsimp only
  repeat' split
  all_goals simp [JEff, countRule_append, countRule_mkRes]

theorem jnAnchor (o : Rules) (tag : String) (attrs : List (String × JAttrVal)) (pos : Pos) :
    JNeutral (jsAnchor o tag attrs pos) := by
  intro s
  unfold jsAnchor
  try dsimp only
  repeat' split
  all_goals simp [JEff, countRule_append, countRule_mkRes]

theorem jnButton (o : Rules) (tag : String) (attrs : List (String × JAttrVal)) (pos : Pos) :
    JNeutral (jsButton o tag attrs pos) := by
  intro s
  unfold jsButton
  try dsimp only
  repeat' split
  all_goals simp [JEff, countRule_append, countRule_mkRes]

theorem jnTable (tag : String) (pos : Pos) : JNeutral (jsTable tag pos) := by
  intro s
  unfold jsTable
  try dsimp only
  repeat' split
  all_goals simp [JEff, countRule_append, countRule_mkRes]

theorem jnCaption (tag : String) : JNeutral (jsCaption tag) := by
  intro s
  unfold jsCaption
  try dsimp only
  repeat' split
  all_goals simp [JEff, countRule_append, countRule_mkRes]

theorem jnEmptyInline (o : Rules) (tag : String) (pos : Pos) :
    JNeutral (jsEmptyInline o tag pos) := by
  intro s
  unfold jsEmptyInline
  try dsimp only
  repeat' split
  all_goals simp [JEff, countRule_append, countRule_mkRes]

theorem jnSection (o : Rules) (tag : String) (pos : Pos) : JNeutral (jsSection o tag pos) := by
  intro s
  unfold jsSection
  try dsimp only
  repeat' split
  all_goals simp [JEff, countRule_append, countRule_mkRes]

theorem jnCtEmptyInline (o : Rules) (tag : String) : JNeutral (jctEmptyInline o tag) := by
  intro s
  unfold jctEmptyInline
  try dsimp only
  repeat' split
  all_goals simp [JEff, countRule_append, countRule_mkRes]

theorem jnCtLinkText (o : Rules) (tag : String) : JNeutral (jctLinkText o tag) := by
  intro s
  unfold jctLinkText
  try dsimp only
  repeat' split
  all_goals simp [JEff, countRule_append, countRule_mkRes]

theorem jnCtNav (o : Rules) (tag : String) : JNeutral (jctNav o tag) := by
  intro s
  unfold jctNav
  try dsimp only
  repeat' split
  all_goals simp [JEff, countRule_append, countRule_mkRes]

theorem jnCtButton (o : Rules) (tag : String) : JNeutral (jctButton o tag) := by
  intro s
  unfold jctButton
  try dsimp only
  repeat' split
  all_goals simp [JEff, countRule_append, countRule_mkRes]

theorem jnCtSection (o : Rules) (tag : String) : JNeutral (jctSection o tag) := by
  intro s
  unfold jctSection
  try dsimp only
  repeat' split
  all_goals simp [JEff, countRule_append, countRule_mkRes]

theorem jnCtTable (o : Rules) (tag : String) : JNeutral (jctTable o tag) := by
  intro s
  unfold jctTable
  try dsimp only
  repeat' split
  all_goals simp [JEff, countRule_append, countRule_mkRes]

theorem jnContainerMark : JNeutral containerMark := by
  intro s
  unfold containerMark
  simp [JEff]

theorem jnAttrContainers (ign : Nat → Bool) (attrs : List (String × JAttrVal)) :
    JNeutral (jAttrContainers ign attrs) := by
  induction attrs with
  | nil =>
    intro s
    exact JEff.jrfl s
  | cons a rest ih =>
    intro s
    unfold jAttrContainers at ih ⊢
    simp only [List.foldl_cons]
    have hstep : JEff s
        (match a.2 with
          | JAttrVal.dyn l => if ign l then s else containerMark s
          | _ => s) [] 0 0 := by
      rcases h : a.2 with v | l | _
      · simp only [h]
        exact JEff.jrfl s
      · simp only [h]
        split
        · exact JEff.jrfl s
        · exact jnContainerMark s
      · simp only [h]
        exact JEff.jrfl s
    simpa using hstep.jcomp (ih _)

theorem jsLabels_eff (attrs : List (String × JAttrVal)) (s : JState) :
    JEff s (jsLabels attrs s) (forLits attrs) 0 0 := by
  unfold jsLabels
  simp [JEff]

theorem jsListNesting_eff (o : Rules) (tag : String) (parent : Option String) (pos : Pos)
    (s : JState) :
    JEff s (jsListNesting o tag parent pos s)
      [] (if o.enforceListNesting ∧ tag = "li" ∧ jParentTrig parent = true then 1 else 0) 0 := by
  by_cases hc : o.enforceListNesting = true ∧ tag = "li"
  · unfold jsListNesting
    rw [if_pos hc]
    cases parent with
    | none =>
      dsimp only
      rw [if_neg]
      · exact JEff.jrfl s
      · intro hcon
        exact absurd hcon.2.2 (by simp [jParentTrig])
    | some p =>
      dsimp only
      by_cases hin : lowerStr p ∈ (["ul", "ol"] : List String)
      · rw [if_pos hin, if_neg]
        · exact JEff.jrfl s
        · intro hcon
          have h2 := hcon.2.2
          simp [jParentTrig] at h2
          simp [h2.1, h2.2] at hin
      · rw [if_neg hin, if_pos]
        · simp [JEff, countRule_append, countRule_mkRes]
        · refine ⟨hc.1, hc.2, ?_⟩
          simp [jParentTrig]
          simp at hin
          exact hin
  · unfold jsListNesting
    rw [if_neg hc, if_neg (fun h => hc ⟨h.1, h.2.1⟩)]
    exact JEff.jrfl s

theorem jsLabelFor_eff (o : Rules) (tag : String) (attrs : List (String × JAttrVal)) (pos : Pos)
    (s : JState) :
    JEff s (jsLabelFor o tag attrs pos s) [] 0
      (if o.requireLabelForFormControls ∧ tag ∈ ["input", "select", "textarea"] ∧
          jAriaMissingB attrs = true ∧ jLabelViolB attrs s.labels = true then 1 else 0) := by
  by_cases hc : o.requireLabelForFormControls = true ∧ tag ∈ ["input", "select", "textarea"]
  · unfold jsLabelFor
    rw [if_pos hc]
    by_cases hv : jAriaMissingB attrs = true ∧ jLabelViolB attrs s.labels = true
    · rw [if_pos hv, if_pos ⟨hc.1, hc.2, hv.1, hv.2⟩]
      simp [JEff, countRule_append, countRule_mkRes]
    · rw [if_neg hv, if_neg (fun h => hv ⟨h.2.2.1, h.2.2.2⟩)]
      exact JEff.jrfl s
  · unfold jsLabelFor
    rw [if_neg hc, if_neg (fun h => hc ⟨h.1, h.2.1⟩)]
    exact JEff.jrfl s


theorem jnExit (o : Rules) (rawName : String) : JNeutral (jExit o rawName) := by
  intro s
  unfold jExit
  exact ((((((JEff.jrfl s).jstepN (jnCtEmptyInline o (lowerStr rawName))).jstepN
    (jnCtLinkText o (lowerStr rawName))).jstepN (jnCtNav o (lowerStr rawName))).jstepN
    (jnCtButton o (lowerStr rawName))).jstepN (jnCtSection o (lowerStr rawName))).jstepN
    (jnCtTable o (lowerStr rawName))

theorem jEnter_eff (o : Rules) (parent : Option String) (rawName : String)
    (attrs : List (String × JAttrVal)) (pos : Pos) (s : JState) :
    JEff s (jEnter o parent rawName attrs pos s)
      (forLits attrs)
      (if o.enforceListNesting ∧ lowerStr rawName = "li" ∧ jParentTrig parent = true
        then 1 else 0)
      (if o.requireLabelForFormControls ∧ lowerStr rawName ∈ ["input", "select", "textarea"] ∧
          jAriaMissingB attrs = true ∧
          jLabelViolB attrs (s.labels ++ forLits attrs) = true then 1 else 0) := by
  unfold jEnter
  have c1 := jsLabels_eff attrs s
  have c2 := c1.jstepN (jnNav (lowerStr rawName) pos)
  have c3 := c2.jstepN (jnNavLink (lowerStr rawName))
  have c4 := c3.jstepN (jnUniqueIds o attrs pos)
  have c5 := c4.jstepN (jnHtmlLang o (lowerStr rawName) attrs pos)
  have c6 := c5.jstepN (jnIframe o (lowerStr rawName) attrs pos)
  have c7 := c6.jstepN (jnImageInput o (lowerStr rawName) attrs pos)
  have hl := c7.jlabelsEq
  have c8 := c7.jcomp (jsLabelFor_eff o (lowerStr rawName) attrs pos _)
  rw [hl] at c8
  have c9 := c8.jstepN (jnSingleH1 o (lowerStr rawName) pos)
  have c10 := c9.jstepN (jnHeadingOrder o (lowerStr rawName) pos)
  have c11 := c10.jstepN (jnAltText o (lowerStr rawName) attrs pos)
  have c12 := c11.jcomp (jsListNesting_eff o (lowerStr rawName) parent pos _)
  have c13 := c12.jstepN (jnAnchor o (lowerStr rawName) attrs pos)
  have c14 := c13.jstepN (jnButton o (lowerStr rawName) attrs pos)
  have c15 := c14.jstepN (jnTable (lowerStr rawName) pos)
  have c16 := c15.jstepN (jnCaption (lowerStr rawName))
  have c17 := c16.jstepN (jnEmptyInline o (lowerStr rawName) pos)
  have c18 := c17.jstepN (jnSection o (lowerStr rawName) pos)
  simpa using c18

mutual

theorem jElemMaster (ign : Nat → Bool) (hign : ∀ l, ign l = false) (parent : Option String)
    (e : JElem) (s : JState) :
    JEff s (jElemRun defaultOptions.rules ign parent s e)
      (jLblE e) (jLiSpecE parent e) (jLfE s.labels e) := by
  cases e with
  | mk rawName attrs line col children =>
    unfold jElemRun
    rw [hign line]
    simp only [Bool.false_eq_true, if_false]
    have hf2 : (defaultOptions.rules.enforceListNesting = true) = True := by
      simp [defaultOptions]
    have hf3 : (defaultOptions.rules.requireLabelForFormControls = true) = True := by
      simp [defaultOptions]
    have henter := jEnter_eff defaultOptions.rules parent rawName attrs
      { line := line - 1, column := col } s
    have hattr := henter.jstepN (jnAttrContainers ign attrs)
    have ha1 := hattr.jlabelsEq
    have hch := jChildListMaster ign hign rawName children
      (jAttrContainers ign attrs
        (jEnter defaultOptions.rules parent rawName attrs { line := line - 1, column := col } s))
    rw [ha1] at hch
    have hcomp := hattr.jcomp hch
    have hfin := hcomp.jstepN (jnExit defaultOptions.rules rawName)
    simp only [hf2, hf3, true_and] at hfin
    simp only [jLblE, jLiSpecE, jLfE]
    simpa using hfin

theorem jChildListMaster (ign : Nat → Bool) (hign : ∀ l, ign l = false) (parentName : String)
    (cs : List JChild) (s : JState) :
    JEff s (jChildList defaultOptions.rules ign parentName s cs)
      (jLblCs cs) (jLiSpecCs parentName cs) (jLfCs s.labels cs) := by
  cases cs with
  | nil =>
    unfold jChildList
    simp only [jLblCs, jLiSpecCs, jLfCs]
    exact JEff.jrfl s
  | cons c rest =>
    unfold jChildList
    have h1 := jChildMaster ign hign parentName c s
    have hl := h1.jlabelsEq
    have h2 := jChildListMaster ign hign parentName rest
      (jChildRun defaultOptions.rules ign parentName s c)
    rw [hl] at h2
    have := h1.jcomp h2
    simp only [jLblCs, jLiSpecCs, jLfCs]
    simpa using this

theorem jChildMaster (ign : Nat → Bool) (hign : ∀ l, ign l = false) (parentName : String)
    (c : JChild) (s : JState) :
    JEff s (jChildRun defaultOptions.rules ign parentName s c)
      (jLblC c) (jLiSpecC parentName c) (jLfC s.labels c) := by
  cases c with
  | celem e =>
    unfold jChildRun
    simp only [jLblC, jLiSpecC, jLfC]
    exact jElemMaster ign hign (some parentName) e s
  | ctext txt line =>
    unfold jChildRun
    rw [hign line]
    simp only [Bool.false_eq_true, if_false, jLblC, jLiSpecC, jLfC]
    split
    · exact jnContainerMark s
    · exact JEff.jrfl s
  | cexpr line inner =>
    unfold jChildRun
    rw [hign line]
    simp only [Bool.false_eq_true, if_false, jLblC, jLiSpecC, jLfC]
    have h1 := jnContainerMark s
    have hl := h1.jlabelsEq
    have h2 := jForestMaster ign hign inner (containerMark s)
    rw [hl] at h2
    have := h1.jcomp h2
    simpa using this

theorem jForestMaster (ign : Nat → Bool) (hign : ∀ l, ign l = false) (es : List JElem)
    (s : JState) :
    JEff s (jElemForest defaultOptions.rules ign s es)
      (jLblF es) (jLiSpecF es) (jLfF s.labels es) := by
  cases es with
  | nil =>
    unfold jElemForest
    simp only [jLblF, jLiSpecF, jLfF]
    exact JEff.jrfl s
  | cons e rest =>
    unfold jElemForest
    have h1 := jElemMaster ign hign none e s
    have hl := h1.jlabelsEq
    have h2 := jForestMaster ign hign rest (jElemRun defaultOptions.rules ign none s e)
    rw [hl] at h2
    have := h1.jcomp h2
    simp only [jLblF, jLiSpecF, jLfF]
    simpa using this

end


/-- All diagnostics and all pending stack entries of a JSX traversal state
lie on non-ignored lines (stack entries store 0-based lines; the check is
against the 1-based line). -/
def LinesOk (ign : Nat → Bool) (s : JState) : Prop :=
  (∀ r ∈ s.results, ign (r.line + 1) = false) ∧
  (∀ e ∈ s.anchorStack, ign (e.line + 1) = false) ∧
  (∀ e ∈ s.buttonStack, ign (e.line + 1) = false) ∧
  (∀ e ∈ s.emptyStack, ign (e.line + 1) = false) ∧
  (∀ e ∈ s.navStack, ign (e.line + 1) = false) ∧
  (∀ e ∈ s.sectionStack, ign (e.line + 1) = false) ∧
  (∀ e ∈ s.tableStack, ign (e.line + 1) = false)

theorem markTxtTop_pred (ign : Nat → Bool) (l : List TxtEntry)
    (h : ∀ e ∈ l, ign (e.line + 1) = false) :
    ∀ e ∈ markTxtTop l, ign (e.line + 1) = false := by
  cases l with
  | nil => simp [markTxtTop]
  | cons a rest =>
    simp only [markTxtTop, List.mem_cons]
    rintro e (rfl | he)
    · exact h a (by simp)
    · exact h e (by simp [he])

theorem markEmpTop_pred (ign : Nat → Bool) (l : List EmpEntry)
    (h : ∀ e ∈ l, ign (e.line + 1) = false) :
    ∀ e ∈ markEmpTop l, ign (e.line + 1) = false := by
  cases l with
  | nil => simp [markEmpTop]
  | cons a rest =>
    simp only [markEmpTop, List.mem_cons]
    rintro e (rfl | he)
    · exact h a (by simp)
    · exact h e (by simp [he])

theorem markBtnTop_pred (ign : Nat → Bool) (l : List BtnEntry)
    (h : ∀ e ∈ l, ign (e.line + 1) = false) :
    ∀ e ∈ markBtnTop l, ign (e.line + 1) = false := by
  cases l with
  | nil => simp [markBtnTop]
  | cons a rest =>
    simp only [markBtnTop, List.mem_cons]
    rintro e (rfl | he)
    · exact h a (by simp)
    · exact h e (by simp [he])

theorem markNavTop_pred (ign : Nat → Bool) (l : List NavEntry)
    (h : ∀ e ∈ l, ign (e.line + 1) = false) :
    ∀ e ∈ markNavTop l, ign (e.line + 1) = false := by
  cases l with
  | nil => simp [markNavTop]
  | cons a rest =>
    simp only [markNavTop, List.mem_cons]
    rintro e (rfl | he)
    · exact h a (by simp)
    · exact h e (by simp [he])

theorem markSecTop_pred (ign : Nat → Bool) (l : List SecEntry)
    (h : ∀ e ∈ l, ign (e.line + 1) = false) :
    ∀ e ∈ markSecTop l, ign (e.line + 1) = false := by
  cases l with
  | nil => simp [markSecTop]
  | cons a rest =>
    simp only [markSecTop, List.mem_cons]
    rintro e (rfl | he)
    · exact h a (by simp)
    · exact h e (by simp [he])

theorem markTblTop_pred (ign : Nat → Bool) (l : List TblEntry)
    (h : ∀ e ∈ l, ign (e.line + 1) = false) :
    ∀ e ∈ markTblTop l, ign (e.line + 1) = false := by
  cases l with
  | nil => simp [markTblTop]
  | cons a rest =>
    simp only [markTblTop, List.mem_cons]
    rintro e (rfl | he)
    · exact h a (by simp)
    · exact h e (by simp [he])

theorem linesOk_containerMark (ign : Nat → Bool) (s : JState) (h : LinesOk ign s) :
    LinesOk ign (containerMark s) := by
  obtain ⟨h1, h2, h3, h4, h5, h6, h7⟩ := h
  unfold containerMark
  exact ⟨h1, markTxtTop_pred ign _ h2, markBtnTop_pred ign _ h3, markEmpTop_pred ign _ h4,
    h5, h6, h7⟩

theorem jokLabels (ign : Nat → Bool) (attrs : List (String × JAttrVal)) (s : JState)
    (h : LinesOk ign s) : LinesOk ign (jsLabels attrs s) := by
  obtain ⟨h1, h2, h3, h4, h5, h6, h7⟩ := h
  exact ⟨h1, h2, h3, h4, h5, h6, h7⟩

theorem jokNav (ign : Nat → Bool) (tag : String) (pos : Pos) (s : JState)
    (h : LinesOk ign s) (hp : ign (pos.line + 1) = false) : LinesOk ign (jsNav tag pos s) := by
  obtain ⟨h1, h2, h3, h4, h5, h6, h7⟩ := h
  unfold jsNav
  split
  · refine ⟨h1, h2, h3, h4, ?_, h6, h7⟩
    simp only [List.mem_cons]
    rintro e (rfl | he)
    · exact hp
    · exact h5 e he
  · exact ⟨h1, h2, h3, h4, h5, h6, h7⟩

theorem jokNavLink (ign : Nat → Bool) (tag : String) (s : JState)
    (h : LinesOk ign s) : LinesOk ign (jsNavLink tag s) := by
  obtain ⟨h1, h2, h3, h4, h5, h6, h7⟩ := h
  unfold jsNavLink
  split
  · exact ⟨h1, h2, h3, h4, markNavTop_pred _ _ h5, h6, h7⟩
  · exact ⟨h1, h2, h3, h4, h5, h6, h7⟩

theorem jokAddResult (ign : Nat → Bool) (pos : Pos) (m r : String) (s : JState)
    (h : LinesOk ign s) (hp : ign (pos.line + 1) = false) :
    LinesOk ign { s with results := s.results ++ [mkRes pos m r] } := by
  obtain ⟨h1, h2, h3, h4, h5, h6, h7⟩ := h
  refine ⟨?_, h2, h3, h4, h5, h6, h7⟩
  simp only [List.mem_append, List.mem_singleton]
  rintro x (hx | rfl)
  · exact h1 x hx
  · exact hp

theorem jokUniqueIds (ign : Nat → Bool) (o : Rules) (attrs : List (String × JAttrVal))
    (pos : Pos) (s : JState) (h : LinesOk ign s) (hp : ign (pos.line + 1) = false) :
    LinesOk ign (jsUniqueIds o attrs pos s) := by
  unfold jsUniqueIds
  try dsimp only
  repeat' split
  · exact jokAddResult ign pos _ _ s h hp
  · exact h
  · exact h
  · exact h
  · exact h

theorem jokHtmlLang (ign : Nat → Bool) (o : Rules) (tag : String)
    (attrs : List (String × JAttrVal)) (pos : Pos) (s : JState)
    (h : LinesOk ign s) (hp : ign (pos.line + 1) = false) :
    LinesOk ign (jsHtmlLang o tag attrs pos s) := by
  obtain ⟨h1, h2, h3, h4, h5, h6, h7⟩ := h
  unfold jsHtmlLang
  try dsimp only
  repeat' split
  · exact ⟨h1, h2, h3, h4, h5, h6, h7⟩
  · refine ⟨?_, h2, h3, h4, h5, h6, h7⟩
    simp only [List.mem_append, List.mem_singleton]
    rintro x (hx | rfl)
    · exact h1 x hx
    · exact hp
  · exact ⟨h1, h2, h3, h4, h5, h6, h7⟩

theorem jokIframe (ign : Nat → Bool) (o : Rules) (tag : String)
    (attrs : List (String × JAttrVal)) (pos : Pos) (s : JState)
    (h : LinesOk ign s) (hp : ign (pos.line + 1) = false) :
    LinesOk ign (jsIframe o tag attrs pos s) := by
  unfold jsIframe
  repeat' split
  · exact h
  · exact jokAddResult ign pos _ _ s h hp
  · exact h

theorem jokImageInput (ign : Nat → Bool) (o : Rules) (tag : String)
    (attrs : List (String × JAttrVal)) (pos : Pos) (s : JState)
    (h : LinesOk ign s) (hp : ign (pos.line + 1) = false) :
    LinesOk ign (jsImageInput o tag attrs pos s) := by
  unfold jsImageInput
  try dsimp only
  repeat' split
  · exact jokAddResult ign pos _ _ s h hp
  · exact h
  · exact h

theorem jokLabelFor (ign : Nat → Bool) (o : Rules) (tag : String)
    (attrs : List (String × JAttrVal)) (pos : Pos) (s : JState)
    (h : LinesOk ign s) (hp : ign (pos.line + 1) = false) :
    LinesOk ign (jsLabelFor o tag attrs pos s) := by
  unfold jsLabelFor
  repeat' split
  · exact jokAddResult ign pos _ _ s h hp
  · exact h
  · exact h

theorem jokSingleH1 (ign : Nat → Bool) (o : Rules) (tag : String) (pos : Pos) (s : JState)
    (h : LinesOk ign s) (hp : ign (pos.line + 1) = false) :
    LinesOk ign (jsSingleH1 o tag pos s) := by
  obtain ⟨h1, h2, h3, h4, h5, h6, h7⟩ := h
  unfold jsSingleH1
  try dsimp only
  repeat' split
  · refine ⟨?_, h2, h3, h4, h5, h6, h7⟩
    simp only [List.mem_append, List.mem_singleton]
    rintro x (hx | rfl)
    · exact h1 x hx
    · exact hp
  · exact ⟨h1, h2, h3, h4, h5, h6, h7⟩
  · exact ⟨h1, h2, h3, h4, h5, h6, h7⟩

theorem jokHeadingOrder (ign : Nat → Bool) (o : Rules) (tag : String) (pos : Pos) (s : JState)
    (h : LinesOk ign s) (hp : ign (pos.line + 1) = false) :
    LinesOk ign (jsHeadingOrder o tag pos s) := by
  obtain ⟨h1, h2, h3, h4, h5, h6, h7⟩ := h
  unfold jsHeadingOrder
  try dsimp only
  repeat' split
  · refine ⟨?_, h2, h3, h4, h5, markSecTop_pred _ _ h6, h7⟩
    simp only [List.mem_append, List.mem_singleton]
    rintro x (hx | rfl)
    · exact h1 x hx
    · exact hp
  · exact ⟨h1, h2, h3, h4, h5, markSecTop_pred _ _ h6, h7⟩
  · exact ⟨h1, h2, h3, h4, h5, h6, h7⟩
  · exact ⟨h1, h2, h3, h4, h5, h6, h7⟩

theorem jokAltText (ign : Nat → Bool) (o : Rules) (tag : String)
    (attrs : List (String × JAttrVal)) (pos : Pos) (s : JState)
    (h : LinesOk ign s) (hp : ign (pos.line + 1) = false) :
    LinesOk ign (jsAltText o tag attrs pos s) := by
  unfold jsAltText
  repeat' split
  all_goals first
  | exact h
  | exact jokAddResult ign pos _ _ s h hp

theorem jokListNesting (ign : Nat → Bool) (o : Rules) (tag : String) (parent : Option String)
    (pos : Pos) (s : JState) (h : LinesOk ign s) (hp : ign (pos.line + 1) = false) :
    LinesOk ign (jsListNesting o tag parent pos s) := by
  unfold jsListNesting
  repeat' split
  · exact h
  · exact jokAddResult ign pos _ _ s h hp
  · exact h
  · exact h

theorem jokAnchor (ign : Nat → Bool) (o : Rules) (tag : String)
    (attrs : List (String × JAttrVal)) (pos : Pos) (s : JState)
    (h : LinesOk ign s) (hp : ign (pos.line + 1) = false) :
    LinesOk ign (jsAnchor o tag attrs pos s) := by
  obtain ⟨h1, h2, h3, h4, h5, h6, h7⟩ := h
  have hpush : LinesOk ign { s with anchorStack :=
      { foundText := false, line := pos.line, column := pos.column } :: s.anchorStack } := by
    refine ⟨h1, ?_, h3, h4, h5, h6, h7⟩
    simp only [List.mem_cons]
    rintro e (rfl | he)
    · exact hp
    · exact h2 e he
  unfold jsAnchor
  try dsimp only
  repeat' split
  · obtain ⟨g1, g2, g3, g4, g5, g6, g7⟩ := hpush
    refine ⟨?_, g2, g3, g4, g5, g6, g7⟩
    simp only [List.mem_append, List.mem_singleton]
    rintro x (hx | rfl)
    · exact g1 x hx
    · exact hp
  · exact hpush
  · exact hpush
  · exact ⟨h1, h2, h3, h4, h5, h6, h7⟩

theorem jokButton (ign : Nat → Bool) (o : Rules) (tag : String)
    (attrs : List (String × JAttrVal)) (pos : Pos) (s : JState)
    (h : LinesOk ign s) (hp : ign (pos.line + 1) = false) :
    LinesOk ign (jsButton o tag attrs pos s) := by
  obtain ⟨h1, h2, h3, h4, h5, h6, h7⟩ := h
  unfold jsButton
  try dsimp only
  repeat' split
  · refine ⟨h1, h2, ?_, h4, h5, h6, h7⟩
    simp only [List.mem_cons]
    rintro e (rfl | he)
    · exact hp
    · exact h3 e he
  · exact ⟨h1, h2, h3, h4, h5, h6, h7⟩

theorem jokTable (ign : Nat → Bool) (tag : String) (pos : Pos) (s : JState)
    (h : LinesOk ign s) (hp : ign (pos.line + 1) = false) :
    LinesOk ign (jsTable tag pos s) := by
  obtain ⟨h1, h2, h3, h4, h5, h6, h7⟩ := h
  unfold jsTable
  split
  · refine ⟨h1, h2, h3, h4, h5, h6, ?_⟩
    simp only [List.mem_cons]
    rintro e (rfl | he)
    · exact hp
    · exact h7 e he
  · exact ⟨h1, h2, h3, h4, h5, h6, h7⟩

theorem jokCaption (ign : Nat → Bool) (tag : String) (s : JState)
    (h : LinesOk ign s) : LinesOk ign (jsCaption tag s) := by
  obtain ⟨h1, h2, h3, h4, h5, h6, h7⟩ := h
  unfold jsCaption
  split
  · exact ⟨h1, h2, h3, h4, h5, h6, markTblTop_pred _ _ h7⟩
  · exact ⟨h1, h2, h3, h4, h5, h6, h7⟩

theorem jokEmptyInline (ign : Nat → Bool) (o : Rules) (tag : String) (pos : Pos) (s : JState)
    (h : LinesOk ign s) (hp : ign (pos.line + 1) = false) :
    LinesOk ign (jsEmptyInline o tag pos s) := by
  obtain ⟨h1, h2, h3, h4, h5, h6, h7⟩ := h
  unfold jsEmptyInline
  split
  · refine ⟨h1, h2, h3, ?_, h5, h6, h7⟩
    simp only [List.mem_cons]
    rintro e (rfl | he)
    · exact hp
    · exact h4 e he
  · exact ⟨h1, h2, h3, h4, h5, h6, h7⟩

theorem jokSection (ign : Nat → Bool) (o : Rules) (tag : String) (pos : Pos) (s : JState)
    (h : LinesOk ign s) (hp : ign (pos.line + 1) = false) :
    LinesOk ign (jsSection o tag pos s) := by
  obtain ⟨h1, h2, h3, h4, h5, h6, h7⟩ := h
  unfold jsSection
  split
  · refine ⟨h1, h2, h3, h4, h5, ?_, h7⟩
    simp only [List.mem_cons]
    rintro e (rfl | he)
    · exact hp
    · exact h6 e he
  · exact ⟨h1, h2, h3, h4, h5, h6, h7⟩

theorem jokEnter (ign : Nat → Bool) (o : Rules) (parent : Option String) (rawName : String)
    (attrs : List (String × JAttrVal)) (pos : Pos) (s : JState)
    (h : LinesOk ign s) (hp : ign (pos.line + 1) = false) :
    LinesOk ign (jEnter o parent rawName attrs pos s) := by
  unfold jEnter
  have s1 := jokLabels ign attrs s h
  have s2 := jokNav ign (lowerStr rawName) pos _ s1 hp
  have s3 := jokNavLink ign (lowerStr rawName) _ s2
  have s4 := jokUniqueIds ign o attrs pos _ s3 hp
  have s5 := jokHtmlLang ign o (lowerStr rawName) attrs pos _ s4 hp
  have s6 := jokIframe ign o (lowerStr rawName) attrs pos _ s5 hp
  have s7 := jokImageInput ign o (lowerStr rawName) attrs pos _ s6 hp
  have s8 := jokLabelFor ign o (lowerStr rawName) attrs pos _ s7 hp
  have s9 := jokSingleH1 ign o (lowerStr rawName) pos _ s8 hp
  have s10 := jokHeadingOrder ign o (lowerStr rawName) pos _ s9 hp
  have s11 := jokAltText ign o (lowerStr rawName) attrs pos _ s10 hp
  have s12 := jokListNesting ign o (lowerStr rawName) parent pos _ s11 hp
  have s13 := jokAnchor ign o (lowerStr rawName) attrs pos _ s12 hp
  have s14 := jokButton ign o (lowerStr rawName) attrs pos _ s13 hp
  have s15 := jokTable ign (lowerStr rawName) pos _ s14 hp
  have s16 := jokCaption ign (lowerStr rawName) _ s15
  have s17 := jokEmptyInline ign o (lowerStr rawName) pos _ s16 hp
  exact jokSection ign o (lowerStr rawName) pos _ s17 hp


theorem jokCtEmptyInline (ign : Nat → Bool) (o : Rules) (tag : String) (s : JState)
    (h : LinesOk ign s) : LinesOk ign (jctEmptyInline o tag s) := by
  obtain ⟨h1, h2, h3, h4, h5, h6, h7⟩ := h
  unfold jctEmptyInline
  split
  · split
    · exact ⟨h1, h2, h3, h4, h5, h6, h7⟩
    · rename_i e rest heq
      split
      · refine ⟨h1, h2, h3, ?_, h5, h6, h7⟩
        intro x hx
        exact h4 x (by rw [heq]; exact List.mem_cons_of_mem _ hx)
      · refine ⟨?_, h2, h3, ?_, h5, h6, h7⟩
        · simp only [List.mem_append, List.mem_singleton]
          rintro x (hx | rfl)
          · exact h1 x hx
          · exact h4 e (by rw [heq]; exact List.mem_cons_self _ _)
        · intro x hx
          exact h4 x (by rw [heq]; exact List.mem_cons_of_mem _ hx)
  · exact ⟨h1, h2, h3, h4, h5, h6, h7⟩

theorem jokCtLinkText (ign : Nat → Bool) (o : Rules) (tag : String) (s : JState)
    (h : LinesOk ign s) : LinesOk ign (jctLinkText o tag s) := by
  obtain ⟨h1, h2, h3, h4, h5, h6, h7⟩ := h
  unfold jctLinkText
  split
  · split
    · exact ⟨h1, h2, h3, h4, h5, h6, h7⟩
    · rename_i a rest heq
      split
      · refine ⟨h1, ?_, h3, h4, h5, h6, h7⟩
        intro x hx
        exact h2 x (by rw [heq]; exact List.mem_cons_of_mem _ hx)
      · refine ⟨?_, ?_, h3, h4, h5, h6, h7⟩
        · simp only [List.mem_append, List.mem_singleton]
          rintro x (hx | rfl)
          · exact h1 x hx
          · exact h2 a (by rw [heq]; exact List.mem_cons_self _ _)
        · intro x hx
          exact h2 x (by rw [heq]; exact List.mem_cons_of_mem _ hx)
  · exact ⟨h1, h2, h3, h4, h5, h6, h7⟩

theorem jokCtNav (ign : Nat → Bool) (o : Rules) (tag : String) (s : JState)
    (h : LinesOk ign s) : LinesOk ign (jctNav o tag s) := by
  obtain ⟨h1, h2, h3, h4, h5, h6, h7⟩ := h
  unfold jctNav
  split
  · split
    · exact ⟨h1, h2, h3, h4, h5, h6, h7⟩
    · rename_i n rest heq
      split
      · refine ⟨?_, h2, h3, h4, ?_, h6, h7⟩
        · simp only [List.mem_append, List.mem_singleton]
          rintro x (hx | rfl)
          · exact h1 x hx
          · exact h5 n (by rw [heq]; exact List.mem_cons_self _ _)
        · intro x hx
          exact h5 x (by rw [heq]; exact List.mem_cons_of_mem _ hx)
      · refine ⟨h1, h2, h3, h4, ?_, h6, h7⟩
        intro x hx
        exact h5 x (by rw [heq]; exact List.mem_cons_of_mem _ hx)
  · exact ⟨h1, h2, h3, h4, h5, h6, h7⟩

theorem jokCtButton (ign : Nat → Bool) (o : Rules) (tag : String) (s : JState)
    (h : LinesOk ign s) : LinesOk ign (jctButton o tag s) := by
  obtain ⟨h1, h2, h3, h4, h5, h6, h7⟩ := h
  unfold jctButton
  split
  · split
    · exact ⟨h1, h2, h3, h4, h5, h6, h7⟩
    · rename_i b rest heq
      have htl : ∀ x ∈ rest, ign (x.line + 1) = false := by
        intro x hx
        exact h3 x (by rw [heq]; exact List.mem_cons_of_mem _ hx)
      have hb : ign (b.line + 1) = false :=
        h3 b (by rw [heq]; exact List.mem_cons_self _ _)
      split
      · exact ⟨h1, h2, htl, h4, h5, h6, h7⟩
      · split
        · refine ⟨?_, h2, htl, h4, h5, h6, h7⟩
          simp only [List.mem_append, List.mem_singleton]
          rintro x (hx | rfl)
          · exact h1 x hx
          · exact hb
        · refine ⟨?_, h2, htl, h4, h5, h6, h7⟩
          simp only [List.mem_append, List.mem_singleton]
          rintro x (hx | rfl)
          · exact h1 x hx
          · exact hb
  · exact ⟨h1, h2, h3, h4, h5, h6, h7⟩

theorem jokCtSection (ign : Nat → Bool) (o : Rules) (tag : String) (s : JState)
    (h : LinesOk ign s) : LinesOk ign (jctSection o tag s) := by
  obtain ⟨h1, h2, h3, h4, h5, h6, h7⟩ := h
  unfold jctSection
  split
  · split
    · exact ⟨h1, h2, h3, h4, h5, h6, h7⟩
    · rename_i e rest heq
      split
      · refine ⟨h1, h2, h3, h4, h5, ?_, h7⟩
        intro x hx
        exact h6 x (by rw [heq]; exact List.mem_cons_of_mem _ hx)
      · refine ⟨?_, h2, h3, h4, h5, ?_, h7⟩
        · simp only [List.mem_append, List.mem_singleton]
          rintro x (hx | rfl)
          · exact h1 x hx
          · exact h6 e (by rw [heq]; exact List.mem_cons_self _ _)
        · intro x hx
          exact h6 x (by rw [heq]; exact List.mem_cons_of_mem _ hx)
  · exact ⟨h1, h2, h3, h4, h5, h6, h7⟩

theorem jokCtTable (ign : Nat → Bool) (o : Rules) (tag : String) (s : JState)
    (h : LinesOk ign s) : LinesOk ign (jctTable o tag s) := by
  obtain ⟨h1, h2, h3, h4, h5, h6, h7⟩ := h
  unfold jctTable
  split
  · split
    · exact ⟨h1, h2, h3, h4, h5, h6, h7⟩
    · rename_i e rest heq
      split
      · refine ⟨h1, h2, h3, h4, h5, h6, ?_⟩
        intro x hx
        exact h7 x (by rw [heq]; exact List.mem_cons_of_mem _ hx)
      · refine ⟨?_, h2, h3, h4, h5, h6, ?_⟩
        · simp only [List.mem_append, List.mem_singleton]
          rintro x (hx | rfl)
          · exact h1 x hx
          · exact h7 e (by rw [heq]; exact List.mem_cons_self _ _)
        · intro x hx
          exact h7 x (by rw [heq]; exact List.mem_cons_of_mem _ hx)
  · exact ⟨h1, h2, h3, h4, h5, h6, h7⟩

theorem jokExit (ign : Nat → Bool) (o : Rules) (rawName : String) (s : JState)
    (h : LinesOk ign s) : LinesOk ign (jExit o rawName s) := by
  unfold jExit
  exact jokCtTable ign o _ _
    (jokCtSection ign o _ _
      (jokCtButton ign o _ _
        (jokCtNav ign o _ _
          (jokCtLinkText ign o _ _
            (jokCtEmptyInline ign o _ s h)))))

theorem linesOk_foldl {β : Type} (ign : Nat → Bool) (f : JState → β → JState)
    (hf : ∀ st b, LinesOk ign st → LinesOk ign (f st b)) :
    ∀ (l : List β) (s : JState), LinesOk ign s → LinesOk ign (List.foldl f s l) := by
  intro l
  induction l with
  | nil => intro s h; exact h
  | cons b bs ih =>
    intro s h
    exact ih (f s b) (hf s b h)

theorem jokAttrContainers (ign : Nat → Bool) (attrs : List (String × JAttrVal)) (s : JState)
    (h : LinesOk ign s) : LinesOk ign (jAttrContainers ign attrs s) := by
  unfold jAttrContainers
  refine linesOk_foldl ign _ ?_ attrs s h
  intro st b hst
  dsimp only
  split
  · split
    · exact hst
    · exact linesOk_containerMark ign st hst
  · exact hst

mutual

/-- Well-formedness of a parsed JSX element: Babel line numbers are 1-based,
so every element's recorded line is at least 1. -/
def wfE : JElem → Bool
  | .mk _ _ line _ children => decide (1 ≤ line) && wfCs children

def wfCs : List JChild → Bool
  | [] => true
  | c :: cs => wfC c && wfCs cs

def wfC : JChild → Bool
  | .celem e => wfE e
  | .ctext _ _ => true
  | .cexpr _ inner => wfF inner

def wfF : List JElem → Bool
  | [] => true
  | e :: es => wfE e && wfF es

end

mutual

theorem jokElemRun (ign : Nat → Bool) (o : Rules) (parent : Option String)
    (e : JElem) (s : JState) (hwf : wfE e = true) (h : LinesOk ign s) :
    LinesOk ign (jElemRun o ign parent s e) := by
  cases e with
  | mk rawName attrs line col children =>
    unfold jElemRun
    simp only [wfE, Bool.and_eq_true, decide_eq_true_eq] at hwf
    obtain ⟨hline, hcs⟩ := hwf
    by_cases hig : ign line = true
    · simp only [hig, if_true]
      exact jokChildList ign o rawName children
        (jAttrContainers ign attrs s) hcs (jokAttrContainers ign attrs s h)
    · simp only [Bool.not_eq_true] at hig
      simp only [hig, Bool.false_eq_true, if_false]
      have hpos : ign ((line - 1) + 1) = false := by
        have : line - 1 + 1 = line := Nat.succ_pred_eq_of_pos hline
        rw [this]
        exact hig
      have s1 := jokEnter ign o parent rawName attrs { line := line - 1, column := col } s h hpos
      have s2 := jokAttrContainers ign attrs _ s1
      have s3 := jokChildList ign o rawName children _ hcs s2
      exact jokExit ign o rawName _ s3

theorem jokChildList (ign : Nat → Bool) (o : Rules) (parentName : String)
    (cs : List JChild) (s : JState) (hwf : wfCs cs = true) (h : LinesOk ign s) :
    LinesOk ign (jChildList o ign parentName s cs) := by
  cases cs with
  | nil => exact h
  | cons c rest =>
    unfold jChildList
    simp only [wfCs, Bool.and_eq_true] at hwf
    exact jokChildList ign o parentName rest _ hwf.2
      (jokChildRun ign o parentName c s hwf.1 h)

theorem jokChildRun (ign : Nat → Bool) (o : Rules) (parentName : String)
    (c : JChild) (s : JState) (hwf : wfC c = true) (h : LinesOk ign s) :
    LinesOk ign (jChildRun o ign parentName s c) := by
  cases c with
  | celem e =>
    unfold jChildRun
    exact jokElemRun ign o (some parentName) e s hwf h
  | ctext txt line =>
    unfold jChildRun
    split
    · exact h
    · split
      · exact linesOk_containerMark ign s h
      · exact h
  | cexpr line inner =>
    unfold jChildRun
    simp only [wfC] at hwf
    refine jokElemForest ign o inner _ hwf ?_
    split
    · exact h
    · exact linesOk_containerMark ign s h

theorem jokElemForest (ign : Nat → Bool) (o : Rules) (es : List JElem)
    (s : JState) (hwf : wfF es = true) (h : LinesOk ign s) :
    LinesOk ign (jElemForest o ign s es) := by
  cases es with
  | nil => exact h
  | cons e rest =>
    unfold jElemForest
    simp only [wfF, Bool.and_eq_true] at hwf
    exact jokElemForest ign o rest _ hwf.2 (jokElemRun ign o none e s hwf.1 h)

end

/-- Every diagnostic of a successful JSX lint lies on a line that is not in
a disabled range: suppression is NOT post-hoc filtering — rules are skipped
at traversal time for ignored nodes, so results on ignored lines never come
into existence. -/
theorem lintJsx_lines_not_ignored (prog : JProgram) (o : LinterOptions)
    (hwf : wfF prog.roots = true) :
    ∀ r ∈ lintJsx (.ok prog) o, isIgnoredOf prog.comments (r.line + 1) = false := by
  unfold lintJsx
  have hinit : LinesOk (isIgnoredOf prog.comments) initJState := by
    refine ⟨?_, ?_, ?_, ?_, ?_, ?_, ?_⟩ <;> simp [initJState]
  have hrun := jokElemForest (isIgnoredOf prog.comments) o.rules prog.roots initJState hwf hinit
  obtain ⟨h1, h2, h3, h4, h5, h6, h7⟩ := hrun
  intro r hr
  simp only [List.mem_append] at hr
  cases hr with
  | inl hx => exact h1 r hx
  | inr hx =>
    split at hx
    · simp only [List.mem_map, List.mem_filter] at hx
      obtain ⟨n, ⟨hn, _⟩, rfl⟩ := hx
      have := h5 n hn
      simpa [mkRes] using this
    · simp at hx


theorem isIgnoredOf_nil : ∀ l, isIgnoredOf [] l = false := by
  intro l
  simp [isIgnoredOf, computeDisables]

theorem countRule_drain (r : String) (hr : r ≠ "requireNavLinks") (b : Bool)
    (ns : List NavEntry) :
    countRule r
      (if b = true then
        (ns.filter (fun n => n.hasLink = false)).map
          (fun n => mkRes { line := n.line, column := n.column } "<nav> contains no links"
            "requireNavLinks")
      else []) = 0 := by
  split
  · simp only [countRule, List.length_eq_zero, List.filter_eq_nil]
    intro x hx
    simp only [List.mem_map] at hx
    obtain ⟨n, _, rfl⟩ := hx
    simp [mkRes, hr, Ne.symm hr]
  · simp [countRule]

theorem jsxCount_li (roots : List JElem) :
    countRule "enforceListNesting" (lintJsx (.ok { roots := roots, comments := [] })
      defaultOptions) = jLiSpecF roots := by
  unfold lintJsx
  have hrun := jForestMaster (isIgnoredOf []) isIgnoredOf_nil roots initJState
  obtain ⟨_, h2, _⟩ := hrun
  rw [countRule_append]
  rw [countRule_drain _ (by decide) _ _]
  rw [h2]
  simp [initJState, countRule]

theorem jsxCount_lf (roots : List JElem) :
    countRule "requireLabelForFormControls" (lintJsx (.ok { roots := roots, comments := [] })
      defaultOptions) = jLfF [] roots := by
  unfold lintJsx
  have hrun := jForestMaster (isIgnoredOf []) isIgnoredOf_nil roots initJState
  obtain ⟨_, _, h3⟩ := hrun
  rw [countRule_append]
  rw [countRule_drain _ (by decide) _ _]
  rw [h3]
  simp [initJState, countRule]

/- Concrete registries for the cross-component claims. -/

/-- A reference from one component file to another, with one recorded usage. -/
def refTo (n p : String) (l c : Nat) : CompRef :=
  { name := n, path := some p, rawImportPath := some p,
    sourceLocation := { line := 1, column := 0 },
    usageLocations := [{ line := l, column := c }] }

/-- A recorded `singleH1` issue, as `lintJsx` would have produced it. -/
def h1Issue (l c : Nat) : LintResult :=
  { line := l, column := c, message := "Multiple <h1> tags found. Only one <h1> is recommended per page.",
    rule := some "singleH1", filePath := none }

/-- Registry with a reference cycle: entry `E.tsx` uses `A.tsx` and `F.tsx`;
`A.tsx` and `B.tsx` use each other; `F.tsx` uses `T.tsx`.  `E` and `T` each
carry a `singleH1` issue, so the cross-component `singleH1` pass must locate
a reference from `E` to `T`. -/
def eDefC8 : CompDef :=
  { name := "E", filePath := "E.tsx", issues := [("singleH1", [h1Issue 2 0])],
    usesComponents := [refTo "A" "A.tsx" 3 0, refTo "F" "F.tsx" 4 0], headings := [] }

def aDefC8 : CompDef :=
  { name := "A", filePath := "A.tsx", issues := [],
    usesComponents := [refTo "B" "B.tsx" 2 0], headings := [] }

def bDefC8 : CompDef :=
  { name := "B", filePath := "B.tsx", issues := [],
    usesComponents := [refTo "A" "A.tsx" 2 0], headings := [] }

def fDefC8 : CompDef :=
  { name := "F", filePath := "F.tsx", issues := [],
    usesComponents := [refTo "T" "T.tsx" 2 0], headings := [] }

def tDefC8 : CompDef :=
  { name := "T", filePath := "T.tsx", issues := [("singleH1", [h1Issue 5 0])],
    usesComponents := [], headings := [] }

def regC8 : Registry :=
  [("E.tsx", eDefC8), ("A.tsx", aDefC8), ("B.tsx", bDefC8), ("F.tsx", fDefC8),
   ("T.tsx", tDefC8)]

/-- `findReferenceForComp` bounces between `A.tsx` and `B.tsx` forever: no
fuel suffices from either side of the cycle. -/
theorem findRef_cycle_ab : ∀ fuel,
    findRefFuel regC8 fuel aDefC8 "T.tsx" = none ∧
    findRefFuel regC8 fuel bDefC8 "T.tsx" = none := by
  intro fuel
  induction fuel with
  | zero => constructor <;> simp [findRefFuel]
  | succ n ih =>
    obtain ⟨ih1, ih2⟩ := ih
    constructor
    · have ih2' := ih2
      simp only [regC8, eDefC8, aDefC8, bDefC8, fDefC8, tDefC8, refTo, h1Issue] at ih2'
      simp +decide [findRefFuel, findRefLoop, regC8, eDefC8, aDefC8, bDefC8, fDefC8,
        tDefC8, refTo, h1Issue, regHas, regGet, ih2']
    · have ih1' := ih1
      simp only [regC8, eDefC8, aDefC8, bDefC8, fDefC8, tDefC8, refTo, h1Issue] at ih1'
      simp +decide [findRefFuel, findRefLoop, regC8, eDefC8, aDefC8, bDefC8, fDefC8,
        tDefC8, refTo, h1Issue, regHas, regGet, ih1']

/-- From the entry point the search also never returns: the `A` branch is
tried before the `F` branch and consumes every amount of fuel. -/
theorem findRef_cycle_entry : ∀ fuel,
    findRefFuel regC8 fuel eDefC8 "T.tsx" = none := by
  intro fuel
  cases fuel with
  | zero => simp [findRefFuel]
  | succ n =>
    have h := (findRef_cycle_ab n).1
    simp only [regC8, eDefC8, aDefC8, bDefC8, fDefC8, tDefC8, refTo, h1Issue] at h
    simp +decide [findRefFuel, findRefLoop, regC8, eDefC8, aDefC8, bDefC8, fDefC8,
      tDefC8, refTo, h1Issue, regHas, regGet, h]


theorem crossH1_c8 : ∀ fuel, findCrossH1Fuel regC8 fuel = none := by
  intro fuel
  match fuel with
  | 0 =>
    simp +decide [findCrossH1Fuel, findEntryPoints, findComponentsWithRule, fcwrGo,
      fcwrRefs, issuesHas, regHas, regGet, regC8, eDefC8, aDefC8, bDefC8, fDefC8,
      tDefC8, refTo, h1Issue, List.foldlM_cons, List.foldlM_nil, Option.bind]
  | 1 =>
    simp +decide [findCrossH1Fuel, findEntryPoints, findComponentsWithRule, fcwrGo,
      fcwrRefs, issuesHas, regHas, regGet, regC8, eDefC8, aDefC8, bDefC8, fDefC8,
      tDefC8, refTo, h1Issue, List.foldlM_cons, List.foldlM_nil, Option.bind]
  | 2 =>
    simp +decide [findCrossH1Fuel, findEntryPoints, findComponentsWithRule, fcwrGo,
      fcwrRefs, issuesHas, regHas, regGet, regC8, eDefC8, aDefC8, bDefC8, fDefC8,
      tDefC8, refTo, h1Issue, List.foldlM_cons, List.foldlM_nil, Option.bind]
  | 3 =>
    simp +decide [findCrossH1Fuel, findEntryPoints, findComponentsWithRule, fcwrGo,
      fcwrRefs, issuesHas, regHas, regGet, regC8, eDefC8, aDefC8, bDefC8, fDefC8,
      tDefC8, refTo, h1Issue, List.foldlM_cons, List.foldlM_nil, Option.bind]
  | (k + 4) =>
    have h := findRef_cycle_entry (k + 4)
    simp only [regC8, eDefC8, aDefC8, bDefC8, fDefC8, tDefC8, refTo, h1Issue] at h
    simp +decide [findCrossH1Fuel, findEntryPoints, findComponentsWithRule, fcwrGo,
      fcwrRefs, issuesHas, issuesGet, regHas, regGet, regC8, eDefC8, aDefC8, bDefC8,
      fDefC8, tDefC8, refTo, h1Issue, List.foldlM_cons, List.foldlM_nil, Option.bind, h]

theorem analyzeTree_c8 : ∀ fuel, analyzeComponentTree regC8 defaultOptions fuel = none := by
  intro fuel
  unfold analyzeComponentTree
  rw [crossH1_c8 fuel]
  rfl


/- Tie-breaking registry for the merged heading sequence: component `A1.tsx`
has one local heading and one child component usage at the same position. -/

def hLoc (line col : Nat) : HeadingInfo :=
  { level := 1, line := line, column := col, filePath := "A1.tsx" }

def cHead : HeadingInfo := { level := 2, line := 1, column := 0, filePath := "C.tsx" }

def cDefTie : CompDef :=
  { name := "C", filePath := "C.tsx", issues := [], usesComponents := [],
    headings := [cHead] }

def aTie (line col : Nat) : CompDef :=
  { name := "A1", filePath := "A1.tsx", issues := [],
    usesComponents := [refTo "C" "C.tsx" line col], headings := [hLoc line col] }

def regTie (line col : Nat) : Registry :=
  [("A1.tsx", aTie line col), ("C.tsx", cDefTie)]

/-- When the next local heading and the next child's usage position coincide
exactly, the comparison `h.line < c.line || (h.line = c.line && h.column <
c.column)` is false, so the CHILD component is expanded first: the tie goes
to the child's headings, not the local heading. -/
theorem collect_tie (line col : Nat) :
    collectFuel (regTie line col) 2 ["A1.tsx"] (aTie line col) =
      some [{ heading := cHead,
              usageLocation := some { filePath := "A1.tsx", line := line, column := col } },
            { heading := hLoc line col, usageLocation := none }] := by
  simp +decide [collectFuel, mergeFuel, sortStable, insertStable, regTie, aTie, cDefTie,
    hLoc, cHead, refTo, regHas, regGet, refLoc, refLe, headingLe]


/- Registry demonstrating the missing `rule` field on cross-component
results: `Page` uses `Widget`, both carry a `singleH1` issue. -/

def widgetC5 : CompDef :=
  { name := "Widget", filePath := "/p/Widget.tsx",
    issues := [("singleH1", [h1Issue 4 2])], usesComponents := [], headings := [] }

def pageC5 : CompDef :=
  { name := "Page", filePath := "/p/Page.tsx", issues := [("singleH1", [h1Issue 2 0])],
    usesComponents := [refTo "Widget" "/p/Widget.tsx" 3 5], headings := [] }

def regC5 : Registry := [("/p/Page.tsx", pageC5), ("/p/Widget.tsx", widgetC5)]

/-- The cross-component `singleH1` pass pushes its result without any `rule`
property (`rule = none`), so the result's rule id is NOT in the closed set of
rule identifiers. -/
theorem analyzeTree_missing_rule :
    analyzeComponentTree regC5 defaultOptions 2 =
      some [{ line := 3, column := 5,
              message := "Multiple <h1> tags: component 'Widget' brings an extra <h1>. Use a lower-level heading.",
              rule := none, filePath := some "/p/Page.tsx" }] := by
  simp +decide [analyzeComponentTree, findCrossH1Fuel, findCrossOrderFuel,
    analyzeHeadingHierarchyFuel, collectFuel, mergeFuel, scanSkips, sortStable,
    insertStable, findEntryPoints, findComponentsWithRule, fcwrGo, fcwrRefs,
    findRefFuel, findRefLoop, issuesHas, issuesGet, regHas, regGet, regC5, pageC5,
    widgetC5, refTo, h1Issue, refLoc, refLe, headingLe, defaultOptions,
    List.foldlM_cons, List.foldlM_nil, Option.bind]


/-- An `<img>` whose `alt` attribute value is a dynamic JSX expression IS
reported by `requireAltText`, with the "empty" message (the non-literal
branch of the check). -/
theorem jsx_img_dyn_alt (d line col : Nat) :
    lintJsx (.ok { roots := [.mk "img" [("alt", .dyn d)] line col []], comments := [] })
      defaultOptions =
      [mkRes { line := line - 1, column := col } "<img> alt attribute is empty"
        "requireAltText"] := by
  simp +decide [lintJsx, jElemForest, jElemRun, jChildList, jAttrContainers,
    isIgnoredOf_nil, jEnter, jExit, jsLabels, jsNav, jsNavLink, jsUniqueIds, jsHtmlLang,
    jsIframe, jsImageInput, jsLabelFor, jsSingleH1, jsHeadingOrder, jsAltText,
    jsListNesting, jsAnchor, jsButton, jsTable, jsCaption, jsEmptyInline, jsSection,
    jctEmptyInline, jctLinkText, jctNav, jctButton, jctSection, jctTable, lastAttr,
    lastLitAttr, forLits, hasNonBlankLit, jAriaMissingB, jLabelViolB, jLabelForMsg,
    lowerStr, trimStr, initJState, defaultOptions, inlineTagsList, headingLevel,
    containerMark]

/-- An `<input type="image">` whose `alt` is a dynamic expression IS reported
by `requireImageInputAlt` (the literal scan skips dynamic values, leaving the
recorded `alt` value undefined). -/
theorem jsx_input_dyn_alt (d line col : Nat) :
    lintJsx (.ok
      { roots :=
          [.mk "input" [("type", .lit "image"), ("alt", .dyn d), ("aria-label", .lit "x")]
            line col []],
        comments := [] }) defaultOptions =
      [mkRes { line := line - 1, column := col }
        "<input type=\"image\"> missing alt attribute" "requireImageInputAlt"] := by
  simp +decide [lintJsx, jElemForest, jElemRun, jChildList, jAttrContainers,
    isIgnoredOf_nil, jEnter, jExit, jsLabels, jsNav, jsNavLink, jsUniqueIds, jsHtmlLang,
    jsIframe, jsImageInput, jsLabelFor, jsSingleH1, jsHeadingOrder, jsAltText,
    jsListNesting, jsAnchor, jsButton, jsTable, jsCaption, jsEmptyInline, jsSection,
    jctEmptyInline, jctLinkText, jctNav, jctButton, jctSection, jctTable, lastAttr,
    lastLitAttr, forLits, hasNonBlankLit, jAriaMissingB, jLabelViolB, jLabelForMsg,
    lowerStr, trimStr, initJState, defaultOptions, inlineTagsList, headingLevel,
    containerMark]


/-- The result set the spec describes for inline directives: run every rule
over the whole file with the directives stripped, then drop post-hoc exactly
the results whose (1-based) start line falls in a disabled range.  (This is
the spec's refinement target, NOT the code's behavior.) -/
def postHocLint (prog : JProgram) (o : LinterOptions) : List LintResult :=
  (lintJsx (.ok { roots := prog.roots, comments := [] }) o).filter
    (fun r => !(isIgnoredOf prog.comments (r.line + 1)))

/-- Two `<h1>` elements, the first under a `zemdomu-disable-next` comment. -/
def c4prog : JProgram :=
  { roots := [.mk "h1" [] 2 0 [.ctext "a" 2], .mk "h1" [] 3 0 [.ctext "b" 3]],
    comments := [{ value := " zemdomu-disable-next ", startLine := 1, endLine := 1 }] }


/- The claims. -/

/-- C1: REFUTED as stated — the HTML backend does NOT terminate on every
input.  On the input consisting of a single `<`, `tokenize`'s
`indexOf('<', i)` returns `i` itself and no token pattern matches, so the
scan position never advances: for every amount of fuel the tokenizer fails
to finish, hence `lintHtml` in HTML mode never returns. -/
theorem claim_c1 (o : LinterOptions) (fuel : Nat) : lintHtmlStringFuel "<" o fuel = none :=
  lintHtmlStringFuel_lt o fuel

/-- C2: the JSX backend does return exactly one `parseError` result at
(0,0) on a parse failure, but the HTML backend has no such guard: on the
unparseable input `<` it diverges instead of producing a `parseError`
result, so the claimed property fails for the HTML backend. -/
theorem claim_c2 :
    (∀ (e : String) (o : LinterOptions), lintJsx (.error e) o =
      [{ line := 0, column := 0, message := "Error parsing JSX/TSX: " ++ e,
         rule := some "parseError", filePath := none }]) ∧
    (∀ (o : LinterOptions) (fuel : Nat), lintHtmlStringFuel "<" o fuel = none) :=
  ⟨fun e o => lintJsx_error e o, fun o fuel => lintHtmlStringFuel_lt o fuel⟩

/-- C3 (amended): a dynamic (non-literal) attribute value is NOT treated
conservatively: an `<img>` with a dynamic `alt` is reported by
`requireAltText` ("alt attribute is empty"), and an `<input type="image">`
with a dynamic `alt` is reported by `requireImageInputAlt` (the value is
treated as absent). -/
theorem claim_c3 :
    (∀ (d line col : Nat),
      lintJsx (.ok { roots := [.mk "img" [("alt", .dyn d)] line col []], comments := [] })
        defaultOptions =
        [mkRes { line := line - 1, column := col } "<img> alt attribute is empty"
          "requireAltText"]) ∧
    (∀ (d line col : Nat),
      lintJsx (.ok
        { roots :=
            [.mk "input" [("type", .lit "image"), ("alt", .dyn d), ("aria-label", .lit "x")]
              line col []],
          comments := [] }) defaultOptions =
        [mkRes { line := line - 1, column := col }
          "<input type=\"image\"> missing alt attribute" "requireImageInputAlt"]) :=
  ⟨fun d line col => jsx_img_dyn_alt d line col,
   fun d line col => jsx_input_dyn_alt d line col⟩

/-- C3 counterexample to the claim as stated: a concrete `<img alt={expr}>`
IS reported by `requireAltText`. -/
theorem claim_c3_cex :
    lintJsx (.ok { roots := [.mk "img" [("alt", .dyn 1)] 1 0 []], comments := [] })
      defaultOptions =
      [mkRes { line := 0, column := 0 } "<img> alt attribute is empty" "requireAltText"] := by
  decide

/-- C4 (amended): suppression is applied at traversal time, not post-hoc:
rules are skipped entirely for nodes whose opening line is disabled, so
every returned diagnostic lies on a non-disabled line.  (The post-hoc
filtering description is refuted by `claim_c4_cex`.) -/
theorem claim_c4 (prog : JProgram) (o : LinterOptions) (hwf : wfF prog.roots = true) :
    ∀ r ∈ lintJsx (.ok prog) o, isIgnoredOf prog.comments (r.line + 1) = false :=
  lintJsx_lines_not_ignored prog o hwf

theorem claim_c4_witness :
    wfF c4prog.roots = true ∧
    (∀ r ∈ lintJsx (.ok c4prog) defaultOptions,
      isIgnoredOf c4prog.comments (r.line + 1) = false) :=
  ⟨by decide, claim_c4 c4prog defaultOptions (by decide)⟩

/-- C4 counterexample: with two `<h1>`s and a `zemdomu-disable-next` on the
first, the traversal-time suppression returns no result (the surviving
`<h1>` is counted first), while the post-hoc description yields the
`singleH1` diagnostic of the second `<h1>` — a node OUTSIDE the disabled
lines whose diagnostic the directive changed. -/
theorem claim_c4_cex :
    lintJsx (.ok c4prog) defaultOptions = [] ∧
    postHocLint c4prog defaultOptions =
      [mkRes { line := 2, column := 0 } "Only one <h1> allowed per document" "singleH1"] ∧
    lintJsx (.ok c4prog) defaultOptions ≠ postHocLint c4prog defaultOptions := by
  refine ⟨by decide, by decide, by decide⟩

/-- C5: REFUTED — the cross-component analyzer pushes result objects with no
`rule` property at all: on a registry where `Page` uses `Widget` and both
carry a `singleH1` issue, the analysis returns a result whose `rule` is
`none`, which is not one of the sixteen rule ids nor `parseError`. -/
theorem claim_c5 :
    ∃ rs, analyzeComponentTree regC5 defaultOptions 2 = some rs ∧
      ∃ r ∈ rs, r.rule = none := by
  refine ⟨_, analyzeTree_missing_rule, ?_⟩
  simp


/-- A single orphan `<li>` HTML document. -/
def docLi : List Node := [.element "li" [] [] 0 false]

/-- C6 (amended): over documents containing no suppression directives, the
HTML `singleH1` rule fires exactly `cntH1L − 1` times: 0 results for exactly
one `<h1>`, `n − 1` for `n ≥ 2`.  (Directives break the unconditional count:
see `claim_c6_cex`.) -/
theorem claim_c6 (gp : Nat → Pos) (roots : List Node) (h : noDisableL roots = true) :
    countRule "singleH1" (lintHtmlTree defaultOptions gp roots) = cntH1L roots - 1 :=
  htmlCount_c6 gp roots h

theorem claim_c6_witness :
    noDisableL doc3 = true ∧
    countRule "singleH1" (lintHtmlTree defaultOptions gp0 doc3) = cntH1L doc3 - 1 :=
  ⟨by decide, claim_c6 gp0 doc3 (by decide)⟩

/-- C6 counterexample to the unconditional claim: a document in which two
`<h1>` elements open, the first behind `zemdomu-disable-next`, produces 0
`singleH1` results, not `2 − 1 = 1`. -/
theorem claim_c6_cex :
    cntH1L docC6 = 2 ∧
    countRule "singleH1" (lintHtmlTree defaultOptions gp0 docC6) = 0 := by
  refine ⟨by decide, by decide⟩

/-- C7 (amended): in the HTML backend the rule follows the claimed
parent-tag discipline (formalized by `liSpecN`: an `<li>` fires iff its
direct parent element is absent or not `ul`/`ol`), but the JSX backend
checks only `<li>` elements whose direct AST parent is a JSX element: an
`<li>` with no element ancestor is never reported there. -/
theorem claim_c7 :
    (∀ (gp : Nat → Pos) (roots : List Node), noDisableL roots = true →
      countRule "enforceListNesting" (lintHtmlTree defaultOptions gp roots) =
        liSpecL none roots) ∧
    (∀ roots : List JElem,
      countRule "enforceListNesting" (lintJsx (.ok { roots := roots, comments := [] })
        defaultOptions) = jLiSpecF roots) :=
  ⟨fun gp roots h => htmlCount_c7 gp roots h, fun roots => jsxCount_li roots⟩

theorem claim_c7_witness :
    noDisableL docLi = true ∧
    countRule "enforceListNesting" (lintHtmlTree defaultOptions gp0 docLi) =
      liSpecL none docLi ∧
    countRule "enforceListNesting"
      (lintJsx (.ok { roots := [.mk "li" [] 1 0 []], comments := [] }) defaultOptions) =
      jLiSpecF [.mk "li" [] 1 0 []] :=
  ⟨by decide, claim_c7.1 gp0 docLi (by decide), claim_c7.2 [.mk "li" [] 1 0 []]⟩

/-- C7 counterexample: an `<li>` with no ancestor element triggers the rule
in the HTML backend but NOT in the JSX backend — the two backends are not
identical, and "no ancestor at all always triggers it" fails for JSX. -/
theorem claim_c7_cex :
    countRule "enforceListNesting" (lintHtmlTree defaultOptions gp0 docLi) = 1 ∧
    lintJsx (.ok { roots := [.mk "li" [] 1 0 []], comments := [] }) defaultOptions = [] := by
  refine ⟨by decide, by decide⟩

/-- C8: REFUTED — `findReferenceForComp` carries no visited set and no
recursion-path guard: on a registry where `A.tsx` and `B.tsx` reference each
other, the search from the entry point never returns for any recursion
depth, and the whole cross-component analysis diverges with it. -/
theorem claim_c8 (fuel : Nat) :
    findRefFuel regC8 fuel eDefC8 "T.tsx" = none ∧
    analyzeComponentTree regC8 defaultOptions fuel = none :=
  ⟨findRef_cycle_entry fuel, analyzeTree_c8 fuel⟩

/-- C9 (amended): the `for` registry is filled in the same single
left-to-right pass that checks controls, so a control is flagged exactly
when no matching `<label for>` literal occurred EARLIER in document order
(`lfSpecL`); a label appearing after the control does not suppress the
report (see `claim_c9_cex`). -/
theorem claim_c9 :
    (∀ (gp : Nat → Pos) (roots : List Node), noDisableL roots = true →
      countRule "requireLabelForFormControls" (lintHtmlTree defaultOptions gp roots) =
        lfSpecL [] roots) ∧
    (∀ roots : List JElem,
      countRule "requireLabelForFormControls"
        (lintJsx (.ok { roots := roots, comments := [] }) defaultOptions) =
        jLfF [] roots) :=
  ⟨fun gp roots h => htmlCount_c9 gp roots h, fun roots => jsxCount_lf roots⟩

theorem claim_c9_witness :
    noDisableL docC9 = true ∧
    countRule "requireLabelForFormControls" (lintHtmlTree defaultOptions gp0 docC9) =
      lfSpecL [] docC9 ∧
    countRule "requireLabelForFormControls"
      (lintJsx (.ok { roots := [], comments := [] }) defaultOptions) = jLfF [] [] :=
  ⟨by decide, claim_c9.1 gp0 docC9 (by decide), claim_c9.2 []⟩

/-- C9 counterexample: an `<input id="x">` followed by `<label for="x">` IS
reported, although a matching label occurs in the same file (only later in
document order). -/
theorem claim_c9_cex :
    lblsL docC9 = ["x"] ∧
    countRule "requireLabelForFormControls" (lintHtmlTree defaultOptions gp0 docC9) = 1 := by
  refine ⟨by decide, by decide⟩

/-- C10: REFUTED as stated — when the next local heading and the next
child's first usage position coincide, the strict comparison
`h.line < c.line || (h.line === c.line && h.column < c.column)` is false and
the CHILD component is expanded first: ties favor the child's headings, not
the local heading. -/
theorem claim_c10 (line col : Nat) :
    collectFuel (regTie line col) 2 ["A1.tsx"] (aTie line col) =
      some [{ heading := cHead,
              usageLocation := some { filePath := "A1.tsx", line := line, column := col } },
            { heading := hLoc line col, usageLocation := none }] :=
  collect_tie line col

/-- C10 counterexample at the concrete tied position (5,3): the child's
heading comes out before the local one. -/
theorem claim_c10_cex :
    collectFuel (regTie 5 3) 2 ["A1.tsx"] (aTie 5 3) =
      some [{ heading := cHead,
              usageLocation := some { filePath := "A1.tsx", line := 5, column := 3 } },
            { heading := hLoc 5 3, usageLocation := none }] := by
  simp +decide [collectFuel, mergeFuel, sortStable, insertStable, regTie, aTie, cDefTie,
    hLoc, cHead, refTo, regHas, regGet, refLoc, refLe, headingLe]

end ZemDomu
